import Mathlib

/-!
Shallow embedding of the Nova client launcher core (Nova4k.py): the string
and hashing primitives it relies on, platform-rule evaluation, version
manifest classification, artifact acquisition over an abstract file system
and network, and launch-command assembly, together with theorems about the
behaviour of each part.
-/

/-! ## String primitives

Python string operations used by the source (`str.replace`, the `in`
substring test, `str.join`, `str.split`, `str.lower`, `str.split(':')`)
modelled over `List Char` / `String`. -/

/-- Check whether the first character list is an initial segment of the second. -/
def leadsWith : List Char → List Char → Bool
  | [], _ => true
  | _ :: _, [] => false
  | p :: ps, c :: cs => p == c && leadsWith ps cs

/-- Worker for `replaceAllL`: the fuel only bounds the recursion (each step
consumes at least one character, so fuel `s.length` never runs out). -/
def replaceGo (pat rep : List Char) : Nat → List Char → List Char
  | _, [] => []
  | 0, s => s
  | fuel + 1, c :: rest =>
    if 0 < pat.length ∧ leadsWith pat (c :: rest) = true then
      rep ++ replaceGo pat rep fuel ((c :: rest).drop pat.length)
    else
      c :: replaceGo pat rep fuel rest

/-- Replace every non-overlapping occurrence of the pattern, scanning left to
right and never rescanning replacement text, as Python `str.replace` does for
a nonempty pattern. -/
def replaceAllL (pat rep s : List Char) : List Char :=
  replaceGo pat rep s.length s

/-- Python `s.replace(pat, rep)`. -/
def pyReplace (s pat rep : String) : String :=
  ⟨replaceAllL pat.data rep.data s.data⟩

/-- Substring occurrence test on character lists. -/
def occursInL (pat : List Char) : List Char → Bool
  | [] => leadsWith pat []
  | c :: rest => leadsWith pat (c :: rest) || occursInL pat rest

/-- Python `pat in hay` substring test. -/
def strContains (hay pat : String) : Bool := occursInL pat.data hay.data

/-- Python `sep.join(parts)`. -/
def sepJoin (sep : String) : List String → String
  | [] => ""
  | [x] => x
  | x :: y :: rest => x ++ sep ++ sepJoin sep (y :: rest)

/-- Python `s.lower()` (ASCII case folding suffices for the source's uses). -/
def lowerStr (s : String) : String := ⟨s.data.map Char.toLower⟩

/-- Split a character list on `':'`, Python `s.split(':')`. -/
def splitColon : List Char → List (List Char)
  | [] => [[]]
  | c :: rest =>
    let r := splitColon rest
    if c == ':' then [] :: r
    else
      match r with
      | [] => [[c]]
      | h :: t => (c :: h) :: t

/-- Python `s.split(':')[-1]`. -/
def lastColonSeg (s : String) : String := ⟨(splitColon s.data).getLastD []⟩

/-- Whitespace split, Python `s.split()` with no argument: runs of whitespace
separate tokens and produce no empty tokens. -/
def splitWsAux : List Char → List Char → List String
  | [], acc => if acc.isEmpty then [] else [⟨acc.reverse⟩]
  | c :: rest, acc =>
    if c == ' ' || c == '\t' || c == '\n' || c == '\r' then
      if acc.isEmpty then splitWsAux rest []
      else ⟨acc.reverse⟩ :: splitWsAux rest []
    else splitWsAux rest (c :: acc)

/-- Python `s.split()`. -/
def splitWs (s : String) : List String := splitWsAux s.data []

/-! ## Hashing

The source verifies artifacts with `hashlib.sha1(...).hexdigest()`
(Nova4k.py:498-514) and derives the offline identity with
`hashlib.md5(...).hexdigest()` (Nova4k.py:761-770).  Both digests are
implemented here over byte lists (`List Nat`, each entry `< 256`). -/

/-- Truncate to a 32-bit word. -/
def w32 (n : Nat) : Nat := n % 4294967296

/-- Rotate a 32-bit word left by `b` bits (`0 < b < 32`). -/
def rotl32 (b n : Nat) : Nat := w32 ((n <<< b) ||| (n >>> (32 - b)))

/-- Lowercase hexadecimal digits, the alphabet of Python `hexdigest()`. -/
def hexDigits : List Char := "0123456789abcdef".data

/-- Two lowercase hex characters of one byte. -/
def byteHex (b : Nat) : List Char :=
  [hexDigits.getD (b / 16) '0', hexDigits.getD (b % 16) '0']

/-- Big-endian hex rendering of a 32-bit word. -/
def wordHexBE (wd : Nat) : List Char :=
  byteHex (wd / 16777216 % 256) ++ byteHex (wd / 65536 % 256) ++
  byteHex (wd / 256 % 256) ++ byteHex (wd % 256)

/-- The four bytes of a 32-bit word, least significant first. -/
def wordBytesLE (wd : Nat) : List Nat :=
  [wd % 256, wd / 256 % 256, wd / 65536 % 256, wd / 16777216 % 256]

/-- Little-endian hex rendering of a 32-bit word (MD5 digest order). -/
def wordHexLE (wd : Nat) : List Char := ((wordBytesLE wd).map byteHex).flatten

/-- The 8-byte big-endian bit length of a message of `L` bytes. -/
def lenBytesBE (L : Nat) : List Nat :=
  let b := L * 8
  [(b >>> 56) % 256, (b >>> 48) % 256, (b >>> 40) % 256, (b >>> 32) % 256,
   (b >>> 24) % 256, (b >>> 16) % 256, (b >>> 8) % 256, b % 256]

/-- The 8-byte little-endian bit length of a message of `L` bytes. -/
def lenBytesLE (L : Nat) : List Nat := (lenBytesBE L).reverse

/-- Group bytes into big-endian 32-bit words. -/
def bytesToWordsBE : List Nat → List Nat
  | b0 :: b1 :: b2 :: b3 :: rest =>
    (((b0 <<< 24) ||| (b1 <<< 16)) ||| ((b2 <<< 8) ||| b3)) :: bytesToWordsBE rest
  | _ => []

/-- Group bytes into little-endian 32-bit words. -/
def bytesToWordsLE : List Nat → List Nat
  | b0 :: b1 :: b2 :: b3 :: rest =>
    (((b3 <<< 24) ||| (b2 <<< 16)) ||| ((b1 <<< 8) ||| b0)) :: bytesToWordsLE rest
  | _ => []

/-- Worker for `chunk64`: the fuel only bounds the recursion (each step
consumes at least one byte, so fuel `l.length` never runs out). -/
def chunk64Go : Nat → List Nat → List (List Nat)
  | _, [] => []
  | 0, l => [l]
  | fuel + 1, b :: rest => ((b :: rest).take 64) :: chunk64Go fuel ((b :: rest).drop 64)

/-- Split a byte list into 64-byte blocks. -/
def chunk64 (l : List Nat) : List (List Nat) := chunk64Go l.length l

/-- Merkle–Damgård padding: `0x80`, zeros to 56 mod 64, then the bit length. -/
def mdPad (m : List Nat) (lenBytes : List Nat) : List Nat :=
  m ++ [128] ++ List.replicate ((119 - m.length % 64) % 64) 0 ++ lenBytes

/-- SHA-1 round function. -/
def sha1F (i b c d : Nat) : Nat :=
  if i < 20 then (b &&& c) ||| ((b ^^^ 4294967295) &&& d)
  else if i < 40 then (b ^^^ c) ^^^ d
  else if i < 60 then ((b &&& c) ||| (b &&& d)) ||| (c &&& d)
  else (b ^^^ c) ^^^ d

/-- SHA-1 round constants. -/
def sha1K (i : Nat) : Nat :=
  if i < 20 then 1518500249
  else if i < 40 then 1859775393
  else if i < 60 then 2400959708
  else 3395469782

/-- Extend a 16-word block schedule by `fuel` further words. -/
def sha1Extend (ws : List Nat) : Nat → List Nat
  | 0 => ws
  | fuel + 1 =>
    let i := ws.length
    let nw := rotl32 1 (((ws.getD (i - 3) 0) ^^^ (ws.getD (i - 8) 0)) ^^^
                        ((ws.getD (i - 14) 0) ^^^ (ws.getD (i - 16) 0)))
    sha1Extend (ws ++ [nw]) fuel

/-- One SHA-1 compression step over a 64-byte block. -/
def sha1Block (h : Nat × Nat × Nat × Nat × Nat) (block : List Nat) :
    Nat × Nat × Nat × Nat × Nat :=
  let ws := sha1Extend (bytesToWordsBE block) 64
  let (h0, h1, h2, h3, h4) := h
  let step := fun (st : Nat × Nat × Nat × Nat × Nat) (i : Nat) =>
    let (a, b, c, d, e) := st
    let t := w32 (w32 (rotl32 5 a + sha1F i b c d) + w32 (e + sha1K i + ws.getD i 0))
    (t, a, rotl32 30 b, c, d)
  let (a, b, c, d, e) := (List.range 80).foldl step (h0, h1, h2, h3, h4)
  (w32 (h0 + a), w32 (h1 + b), w32 (h2 + c), w32 (h3 + d), w32 (h4 + e))

/-- SHA-1 lowercase hex digest of a byte list, Python
`hashlib.sha1(m).hexdigest()`. -/
def sha1hex (m : List Nat) : String :=
  let padded := mdPad m (lenBytesBE m.length)
  let hs := (chunk64 padded).foldl sha1Block
    (1732584193, 4023233417, 2562383102, 271733878, 3285377520)
  ⟨wordHexBE hs.1 ++ wordHexBE hs.2.1 ++ wordHexBE hs.2.2.1 ++
   wordHexBE hs.2.2.2.1 ++ wordHexBE hs.2.2.2.2⟩

/-- MD5 round constants. -/
def md5K : List Nat :=
  [0xd76aa478, 0xe8c7b756, 0x242070db, 0xc1bdceee,
   0xf57c0faf, 0x4787c62a, 0xa8304613, 0xfd469501,
   0x698098d8, 0x8b44f7af, 0xffff5bb1, 0x895cd7be,
   0x6b901122, 0xfd987193, 0xa679438e, 0x49b40821,
   0xf61e2562, 0xc040b340, 0x265e5a51, 0xe9b6c7aa,
   0xd62f105d, 0x02441453, 0xd8a1e681, 0xe7d3fbc8,
   0x21e1cde6, 0xc33707d6, 0xf4d50d87, 0x455a14ed,
   0xa9e3e905, 0xfcefa3f8, 0x676f02d9, 0x8d2a4c8a,
   0xfffa3942, 0x8771f681, 0x6d9d6122, 0xfde5380c,
   0xa4beea44, 0x4bdecfa9, 0xf6bb4b60, 0xbebfbc70,
   0x289b7ec6, 0xeaa127fa, 0xd4ef3085, 0x04881d05,
   0xd9d4d039, 0xe6db99e5, 0x1fa27cf8, 0xc4ac5665,
   0xf4292244, 0x432aff97, 0xab9423a7, 0xfc93a039,
   0x655b59c3, 0x8f0ccc92, 0xffeff47d, 0x85845dd1,
   0x6fa87e4f, 0xfe2ce6e0, 0xa3014314, 0x4e0811a1,
   0xf7537e82, 0xbd3af235, 0x2ad7d2bb, 0xeb86d391]

/-- MD5 per-round left-rotation amounts. -/
def md5S : List Nat :=
  [7, 12, 17, 22, 7, 12, 17, 22, 7, 12, 17, 22, 7, 12, 17, 22,
   5, 9, 14, 20, 5, 9, 14, 20, 5, 9, 14, 20, 5, 9, 14, 20,
   4, 11, 16, 23, 4, 11, 16, 23, 4, 11, 16, 23, 4, 11, 16, 23,
   6, 10, 15, 21, 6, 10, 15, 21, 6, 10, 15, 21, 6, 10, 15, 21]

/-- MD5 round function. -/
def md5F (i b c d : Nat) : Nat :=
  if i < 16 then (b &&& c) ||| ((b ^^^ 4294967295) &&& d)
  else if i < 32 then (d &&& b) ||| ((d ^^^ 4294967295) &&& c)
  else if i < 48 then (b ^^^ c) ^^^ d
  else c ^^^ (b ||| (d ^^^ 4294967295))

/-- MD5 message-word index per round. -/
def md5G (i : Nat) : Nat :=
  if i < 16 then i
  else if i < 32 then (5 * i + 1) % 16
  else if i < 48 then (3 * i + 5) % 16
  else (7 * i) % 16

/-- One MD5 compression step over a 64-byte block. -/
def md5Block (h : Nat × Nat × Nat × Nat) (block : List Nat) :
    Nat × Nat × Nat × Nat :=
  let ws := bytesToWordsLE block
  let (a0, b0, c0, d0) := h
  let step := fun (st : Nat × Nat × Nat × Nat) (i : Nat) =>
    let (a, b, c, d) := st
    let f := w32 (a + md5F i b c d + md5K.getD i 0 + ws.getD (md5G i) 0)
    (d, w32 (b + rotl32 (md5S.getD i 0) f), b, c)
  let (a, b, c, d) := (List.range 64).foldl step (a0, b0, c0, d0)
  (w32 (a0 + a), w32 (b0 + b), w32 (c0 + c), w32 (d0 + d))

/-- MD5 lowercase hex digest of a byte list, Python
`hashlib.md5(m).hexdigest()`. -/
def md5hex (m : List Nat) : String :=
  let padded := mdPad m (lenBytesLE m.length)
  let hs := (chunk64 padded).foldl md5Block
    (1732584193, 4023233417, 2562383102, 271733878)
  ⟨wordHexLE hs.1 ++ wordHexLE hs.2.1 ++ wordHexLE hs.2.2.1 ++ wordHexLE hs.2.2.2⟩

/-- UTF-8 encoding of one character, Python `str.encode('utf-8')` per char. -/
def utf8Char (c : Char) : List Nat :=
  let n := c.toNat
  if n < 128 then [n]
  else if n < 2048 then [192 + n / 64, 128 + n % 64]
  else if n < 65536 then [224 + n / 4096, 128 + (n / 64) % 64, 128 + n % 64]
  else [240 + n / 262144, 128 + (n / 4096) % 64, 128 + (n / 64) % 64, 128 + n % 64]

/-- UTF-8 encoding of a string, Python `s.encode('utf-8')`. -/
def utf8Bytes (s : String) : List Nat := (s.data.map utf8Char).flatten

/-- Stable offline identity (Nova4k.py:761-770): MD5 of
`"OfflinePlayer:" + username`, formatted as the dashed 8-4-4-4-12 layout. -/
def generate_offline_uuid (username : String) : String :=
  let md5_hash := (md5hex (utf8Bytes ("OfflinePlayer:" ++ username))).data
  ⟨md5_hash.take 8 ++ '-' :: ((md5_hash.drop 8).take 4) ++
   '-' :: ((md5_hash.drop 12).take 4) ++ '-' :: ((md5_hash.drop 16).take 4) ++
   '-' :: md5_hash.drop 20⟩

/-! ## Data model

The JSON structures the source reads (version manifest, per-version
metadata document) as Lean structures.  Optional JSON keys become `Option`
fields; JSON sub-objects reached through fixed key chains
(`downloads.client`, `downloads.artifact`, `downloads.classifiers`) are
flattened into one field. -/

/-- The `os` object of a rule: `{"name": ...}`; the name key may be absent. -/
structure OsSpec where
  name : Option String
deriving DecidableEq

/-- One entry of a `rules` array: optional `action`, optional `os` object,
and an optional `features` object (whose contents the source never reads,
so it is modelled by its presence alone). -/
structure Rule where
  action : Option String
  os : Option OsSpec
  features : Option Unit
deriving DecidableEq

/-- `downloads.client` of a metadata document. -/
structure ClientInfo where
  url : String
  sha1 : String
deriving DecidableEq

/-- `downloads.artifact` of a library entry. -/
structure Artifact where
  path : String
  url : String
  sha1 : String
deriving DecidableEq

/-- One `downloads.classifiers.<classifier>` descriptor. -/
structure NativeInfo where
  url : String
  sha1 : String
deriving DecidableEq

/-- One entry of the metadata document's `libraries` array.  `natives` is
the `natives.<os>` mapping (os name to classifier template) and
`classifiers` the `downloads.classifiers` mapping; an absent JSON mapping
is the empty list. -/
structure Library where
  name : String
  rules : Option (List Rule)
  artifact : Option Artifact
  natives : List (String × String)
  classifiers : List (String × NativeInfo)
deriving DecidableEq

/-- A `arguments.jvm` / `arguments.game` value: a single token or a list. -/
inductive ArgValueJ where
  | one : String → ArgValueJ
  | many : List String → ArgValueJ
deriving DecidableEq

/-- One entry of a templated argument array: a literal string, or a JSON
object with optional `rules` and `value` keys. -/
inductive ArgEntry where
  | lit : String → ArgEntry
  | cond : Option (List Rule) → Option ArgValueJ → ArgEntry
deriving DecidableEq

/-- A parsed per-version metadata document (the fields Nova4k.py reads). -/
structure VersionData where
  client : Option ClientInfo
  libraries : List Library
  mainClass : Option String
  argumentsJvm : Option (List ArgEntry)
  argumentsGame : Option (List ArgEntry)
  minecraftArguments : Option String
  assetIndexId : Option String
  vtype : Option String
deriving DecidableEq

/-- One entry of the version manifest's `versions` array (`vtype` models the
JSON `type` key). -/
structure ManifestEntry where
  id : String
  vtype : String
  url : String
deriving DecidableEq

/-- The version manifest: `latest.release`, `latest.snapshot`, `versions`. -/
structure Manifest where
  latestRelease : String
  latestSnapshot : String
  versions : List ManifestEntry
deriving DecidableEq

/-! ## Rule evaluation (Nova4k.py:700-759)

`is_library_allowed` and `evaluate_rules` contain the same scanning loop;
it is factored out as `rulesScan`. -/

/-- The shared loop body of `is_library_allowed` (Nova4k.py:706-728) and
`evaluate_rules` (Nova4k.py:736-759): rules carrying a `features` key are
skipped; a rule matches when its `os` object is absent or its `os.name`
equals the current platform; a matching allow sets the running flag, a
matching disallow returns `false` immediately. -/
def rulesScan (current_os : String) (rules : List Rule) (allow : Bool) : Bool :=
  match rules with
  | [] => allow
  | rule :: rest =>
    if rule.features.isSome then rulesScan current_os rest allow
    else
      let os_match :=
        match rule.os with
        | none => true
        | some o => o.name == some current_os
      if os_match then
        if rule.action == some "allow" then rulesScan current_os rest true
        else if rule.action == some "disallow" then false
        else rulesScan current_os rest allow
      else rulesScan current_os rest allow

/-- Nova4k.py:700-728: a library with no `rules` key is allowed everywhere;
otherwise the rules are scanned with the flag initialised to `false`. -/
def is_library_allowed (lib : Library) (current_os : String) : Bool :=
  match lib.rules with
  | none => true
  | some rules => rulesScan current_os rules false

/-- Nova4k.py:730-759: an empty rule list is allowed; otherwise the rules
are scanned with the flag initialised to `false`. -/
def evaluate_rules (rules : List Rule) (current_os : String) : Bool :=
  if rules.isEmpty then true
  else rulesScan current_os rules false

/-- A rule that vetoes the given platform: no feature predicate, action
`"disallow"`, and an os predicate that is absent or names the platform. -/
def matchingDisallow (r : Rule) (current_os : String) : Bool :=
  !(r.features.isSome) && (r.action == some "disallow") &&
    (match r.os with
     | none => true
     | some o => o.name == some current_os)

/-! ## Templated argument expansion (Nova4k.py:861-930)

The loops over `arguments.jvm` and `arguments.game` are identical: literal
strings are appended; dict entries are expanded only when they carry both
`rules` and `value` keys and the rules evaluate to true. -/

/-- Expansion of one templated argument array against a platform. -/
def expandArgs (args : List ArgEntry) (current_os : String) : List String :=
  match args with
  | [] => []
  | .lit s :: rest => s :: expandArgs rest current_os
  | .cond rules? value? :: rest =>
    match rules?, value? with
    | some rules, some v =>
      if evaluate_rules rules current_os then
        (match v with
         | .one s => [s]
         | .many l => l) ++ expandArgs rest current_os
      else expandArgs rest current_os
    | _, _ => expandArgs rest current_os

/-! ## Manifest classification (Nova4k.py:333-376) -/

/-- The six version-category lists kept by the launcher. -/
structure Categories where
  latestReleaseL : List String
  latestSnapshotL : List String
  releaseL : List String
  snapshotL : List String
  oldBetaL : List String
  oldAlphaL : List String
deriving DecidableEq

/-- The empty category table. -/
def emptyCats : Categories := ⟨[], [], [], [], [], []⟩

/-- Classification of one manifest entry (the if/elif chain of
Nova4k.py:351-362): the two latest identifiers take priority, then the
four known type strings; any other type is appended nowhere. -/
def classifyEntry (lr ls : String) (v : ManifestEntry) (c : Categories) : Categories :=
  if v.id == lr then { c with latestReleaseL := c.latestReleaseL ++ [v.id] }
  else if v.id == ls then { c with latestSnapshotL := c.latestSnapshotL ++ [v.id] }
  else if v.vtype == "release" then { c with releaseL := c.releaseL ++ [v.id] }
  else if v.vtype == "snapshot" then { c with snapshotL := c.snapshotL ++ [v.id] }
  else if v.vtype == "old_beta" then { c with oldBetaL := c.oldBetaL ++ [v.id] }
  else if v.vtype == "old_alpha" then { c with oldAlphaL := c.oldAlphaL ++ [v.id] }
  else c

/-- The classification loop over the whole `versions` array. -/
def classifyAll (m : Manifest) : Categories :=
  m.versions.foldl (fun c v => classifyEntry m.latestRelease m.latestSnapshot v c) emptyCats

/-- Python string comparison (`<` on strings): lexicographic on code points,
a strict prefix is smaller. -/
def strLtB : List Char → List Char → Bool
  | [], [] => false
  | [], _ :: _ => true
  | _ :: _, [] => false
  | c :: cs, d :: ds => if c.toNat < d.toNat then true
                        else if d.toNat < c.toNat then false
                        else strLtB cs ds

/-- Insert into a descending-sorted list, keeping it descending. -/
def insertDesc (x : String) : List String → List String
  | [] => [x]
  | y :: ys => if strLtB x.data y.data then y :: insertDesc x ys else x :: y :: ys

/-- Sort a string list descending (`list.sort(reverse=True)`). -/
def sortDesc (l : List String) : List String := l.foldr insertDesc []

/-- Per-category sort (Nova4k.py:364-368): every category except the two
latest ones is sorted by identifier, descending. -/
def sortCats (c : Categories) : Categories :=
  { c with releaseL := sortDesc c.releaseL,
           snapshotL := sortDesc c.snapshotL,
           oldBetaL := sortDesc c.oldBetaL,
           oldAlphaL := sortDesc c.oldAlphaL }

/-- Successful branch of `load_version_manifest` (Nova4k.py:333-376):
the id-to-url mapping and the sorted category table built from a fetched
manifest (network and parse failures surface as a reported error before
this point and build nothing). -/
def load_version_manifest (m : Manifest) : List (String × String) × Categories :=
  (m.versions.map (fun v => (v.id, v.url)), sortCats (classifyAll m))

/-- Total number of occurrences of an identifier across the six category
lists. -/
def occCount (c : Categories) (x : String) : Nat :=
  c.latestReleaseL.count x + c.latestSnapshotL.count x + c.releaseL.count x +
  c.snapshotL.count x + c.oldBetaL.count x + c.oldAlphaL.count x

/-- An entry the classifier files somewhere: it equals one of the latest
identifiers or carries one of the four known type strings. -/
def knownB (lr ls : String) (v : ManifestEntry) : Bool :=
  v.id == lr || v.id == ls || v.vtype == "release" || v.vtype == "snapshot" ||
  v.vtype == "old_beta" || v.vtype == "old_alpha"

/-! ## File system and network model

The on-disk artifact tree is a finite map from paths to byte contents.
Paths are the component lists produced by the source's `os.path.join`
calls, relative to the launcher's base directory; the join never merges or
splits components, so component lists keep distinct paths distinct.  The
network is a function from URL to the bytes a download of that URL would
store (`none` models a raised download error), plus the one remote
metadata document fetch, plus the table of members a downloaded native
archive unpacks to. -/

/-- A path below the launcher base directory, as its components. -/
abbrev FPath := List String

/-- The artifact tree: an association list, most recent write first. -/
abbrev FSMap := List (FPath × List Nat)

/-- Read a file's bytes. -/
def lookupF (m : FSMap) (p : FPath) : Option (List Nat) :=
  match m with
  | [] => none
  | (q, c) :: rest => if q = p then some c else lookupF rest p

/-- Write (or overwrite) a file. -/
def writeF (m : FSMap) (p : FPath) (c : List Nat) : FSMap := (p, c) :: m

/-- Delete a file (`os.remove`). -/
def removeF (m : FSMap) (p : FPath) : FSMap :=
  m.filter (fun e => decide (e.1 ≠ p))

/-- `os.path.exists`. -/
def pathExistsF (m : FSMap) (p : FPath) : Bool := (lookupF m p).isSome

/-- Nova4k.py:498-514, `verify_file`: `false` for an absent (or unreadable)
file, otherwise the comparison `sha1(contents).hexdigest() == expected_sha1`
with no case normalization on either side. -/
def verify_file (m : FSMap) (file_path : FPath) (expected_sha1 : String) : Bool :=
  match lookupF m file_path with
  | none => false
  | some content => sha1hex content == expected_sha1

/-- The comparison step as §4.2 of the specification words it: both hex
digests normalized to lowercase before comparing.  Stated only to be
compared with `verify_file`. -/
def verify_file_spec (m : FSMap) (file_path : FPath) (expected_sha1 : String) : Bool :=
  match lookupF m file_path with
  | none => false
  | some content => lowerStr (sha1hex content) == lowerStr expected_sha1

/-- One member of a native archive as `zipfile` reports it. -/
structure ZipEntry where
  filename : String
  isDir : Bool
  data : List Nat
deriving DecidableEq

/-- The ambient world a `download_version_files` run interacts with:
the remote metadata document for the requested version URL
(`none` = network error, `some none` = fetched but malformed JSON,
`some (some d)` = parses to `d`), the downloadable bytes per URL, and the
member table of downloaded native archives. -/
structure World where
  versionDoc : Option (Option VersionData)
  net : String → Option (List Nat)
  zipEntries : List Nat → List ZipEntry

/-- The mutable state a run threads: the version's local metadata document
(abstracted by its parse result; `some none` = present but malformed), the
artifact tree, and the number of network requests attempted so far. -/
structure AcqState where
  jsonFile : Option (Option VersionData)
  files : FSMap
  nreq : Nat
deriving DecidableEq

/-- Count one attempted network request. -/
def bumpSt (st : AcqState) : AcqState := { st with nreq := st.nreq + 1 }

/-! ### Fixed paths (Nova4k.py:22-35, 519-523, 566, 596-599, 609, 633) -/

/-- `MINECRAFT_DIR`, relative to the base directory. -/
def MINECRAFT_SEGS : FPath := ["minecraft"]

/-- `versions/<id>/<id>.jar`. -/
def jarPath (version_id : String) : FPath :=
  ["minecraft", "versions", version_id, version_id ++ ".jar"]

/-- `libraries/<artifact path>`. -/
def libPath (rel : String) : FPath := ["minecraft", "libraries", rel]

/-- `versions/<id>/natives`. -/
def nativesDirSegs (version_id : String) : FPath :=
  ["minecraft", "versions", version_id, "natives"]

/-- The temporary native archive `versions/<id>/natives/<name>-<classifier>.jar`
(Nova4k.py:633, using `lib['name'].split(':')[-1]`). -/
def nativeTmpPath (version_id name classifier : String) : FPath :=
  ["minecraft", "versions", version_id, "natives",
   lastColonSeg name ++ "-" ++ classifier ++ ".jar"]

/-- Nova4k.py:592-594 (and 789-791): `platform.system().lower()`, mapping
`"darwin"` to the rule-platform token `"osx"`. -/
def osName (sysName : String) : String :=
  let s := lowerStr sysName
  if s == "darwin" then "osx" else s

/-- Association-list lookup for the JSON sub-maps (`natives`,
`downloads.classifiers`). -/
def assocLookup {α : Type} (l : List (String × α)) (k : String) : Option α :=
  match l with
  | [] => none
  | (k', v) :: rest => if k' == k then some v else assocLookup rest k

/-! ## Artifact acquisition (Nova4k.py:516-667) -/

/-- Stage one of `download_version_files` (Nova4k.py:522-556): load the
local metadata document if it exists; if reading it fails, delete it and
re-enter the stage (the source's recursive call, Nova4k.py:547, re-runs
with the file gone); with no local file, fetch the document, which either
raises (network error or malformed JSON, surfacing as a failed load with
nothing written) or is persisted and returned. -/
def loadStage (w : World) (st : AcqState) : Option VersionData × AcqState :=
  match h : st.jsonFile with
  | none =>
    match w.versionDoc with
    | none => (none, bumpSt st)
    | some none => (none, bumpSt st)
    | some (some d) => (some d, { bumpSt st with jsonFile := some (some d) })
  | some (some d) => (some d, st)
  | some none => loadStage w { st with jsonFile := none }
termination_by st.jsonFile.elim 0 (fun _ => 1)
decreasing_by simp [h]

/-- Stage two of `download_version_files` (Nova4k.py:558-588): skip the
client JAR when it exists and verifies; otherwise download it, count the
request, and re-verify — a download error or a post-download digest
mismatch (which deletes the file) fails the stage. -/
def jarStage (w : World) (version_id : String) (jar_info : ClientInfo)
    (st : AcqState) : Bool × AcqState :=
  let jar_path := jarPath version_id
  if !(pathExistsF st.files jar_path) || !(verify_file st.files jar_path jar_info.sha1) then
    match w.net jar_info.url with
    | none => (false, bumpSt st)
    | some content =>
      let st1 := { st with nreq := st.nreq + 1,
                           files := writeF st.files jar_path content }
      if !(verify_file st1.files jar_path jar_info.sha1) then
        (false, { st1 with files := removeF st1.files jar_path })
      else (true, st1)
  else (true, st)

/-- Unpack the regular-file members of a native archive into the natives
directory (Nova4k.py:650-657); directory members are skipped. -/
def extractNatives (entries : List ZipEntry) (version_id : String)
    (files : FSMap) : FSMap :=
  match entries with
  | [] => files
  | e :: rest =>
    let files' := if e.isDir then files
                  else writeF files (nativesDirSegs version_id ++ [e.filename]) e.data
    extractNatives rest version_id files'

/-- Primary-archive processing of one applicable library entry
(Nova4k.py:604-624): ensure the archive with the skip-if-verified policy;
a download error or a post-download digest mismatch (which deletes the
file) is soft. -/
def libArtifactStep (w : World) (st : AcqState) (lib : Library) : AcqState :=
  match lib.artifact with
  | none => st
  | some artifact_info =>
    let lib_path := libPath artifact_info.path
    if !(pathExistsF st.files lib_path) ||
       !(verify_file st.files lib_path artifact_info.sha1) then
      match w.net artifact_info.url with
      | none => bumpSt st
      | some content =>
        let st' := { st with nreq := st.nreq + 1,
                             files := writeF st.files lib_path content }
        if !(verify_file st'.files lib_path artifact_info.sha1) then
          { st' with files := removeF st'.files lib_path }
        else st'
    else st

/-- Native-archive processing of one applicable library entry
(Nova4k.py:626-664): when a classifier resolves for the platform, ensure
the native archive with the same policy, unpacking it after a fresh
verified download; all failures are soft. -/
def libNativesStep (w : World) (version_id current_os archBits : String)
    (st1 : AcqState) (lib : Library) : AcqState :=
  match assocLookup lib.natives current_os with
  | none => st1
  | some natv =>
    let classifier := pyReplace natv "${arch}" (pyReplace archBits "bit" "")
    match assocLookup lib.classifiers classifier with
    | none => st1
    | some native_info =>
      let ntp := nativeTmpPath version_id lib.name classifier
      if !(pathExistsF st1.files ntp) ||
         !(verify_file st1.files ntp native_info.sha1) then
        match w.net native_info.url with
        | none => bumpSt st1
        | some content =>
          let st2 := { st1 with nreq := st1.nreq + 1,
                                files := writeF st1.files ntp content }
          if !(verify_file st2.files ntp native_info.sha1) then
            { st2 with files := removeF st2.files ntp }
          else { st2 with files := extractNatives (w.zipEntries content) version_id st2.files }
      else st1

/-- Processing of one library entry (Nova4k.py:601-664): if the entry is
applicable, its primary archive and then its native archive are ensured;
an inapplicable entry is skipped entirely. -/
def libStep (w : World) (version_id current_os archBits : String)
    (st : AcqState) (lib : Library) : AcqState :=
  if is_library_allowed lib current_os then
    libNativesStep w version_id current_os archBits (libArtifactStep w st lib) lib
  else st

/-- Nova4k.py:516-667, `download_version_files`: load the metadata
document, ensure the client JAR (mandatory: its failure fails the run),
then process every library (all failures there are soft) and report
success. -/
def download_version_files (w : World) (version_id sysName archBits : String)
    (st : AcqState) : Bool × AcqState :=
  match loadStage w st with
  | (none, st1) => (false, st1)
  | (some version_data, st1) =>
    match version_data.client with
    | none => (false, st1)
    | some jar_info =>
      let current_os := osName sysName
      match jarStage w version_id jar_info st1 with
      | (false, st2) => (false, st2)
      | (true, st2) =>
        (true, version_data.libraries.foldl (libStep w version_id current_os archBits) st2)

/-- The skip conditions of `libStep` all hold for a library: it is
inapplicable, or its primary archive (when it has one) and its resolved
native archive (when one resolves) are present and verified. -/
def libCached (version_id current_os archBits : String) (files : FSMap)
    (lib : Library) : Bool :=
  !(is_library_allowed lib current_os) ||
  ((match lib.artifact with
    | none => true
    | some a => pathExistsF files (libPath a.path) &&
                verify_file files (libPath a.path) a.sha1) &&
   (match assocLookup lib.natives current_os with
    | none => true
    | some natv =>
      let classifier := pyReplace natv "${arch}" (pyReplace archBits "bit" "")
      match assocLookup lib.classifiers classifier with
      | none => true
      | some ni => pathExistsF files (nativeTmpPath version_id lib.name classifier) &&
                   verify_file files (nativeTmpPath version_id lib.name classifier) ni.sha1))

/-! ## Launch-command assembly (Nova4k.py:772-975)

Java resolution (Nova4k.py:793-805) shells out to `java -version`; the
resolved executable path is therefore an input here (`none` models the
"required Java not found" error path).  Paths are rendered home-relative
with `/` separators; the classpath separator `os.pathsep` is a parameter. -/

/-- Render a path below the base directory as a string. -/
def renderPath (p : FPath) : String := sepJoin "/" ("~/.nova-client" :: p)

/-- The fixed fallback JVM argument list (Nova4k.py:848-858). -/
def default_jvm_args : List String :=
  ["-XX:+UseG1GC", "-XX:-UseAdaptiveSizePolicy", "-XX:MinHeapFreeRatio=3",
   "-XX:MaxHeapFreeRatio=9", "-XX:+DisableExplicitGC", "-XX:+AlwaysPreTouch",
   "-XX:+UnlockExperimentalVMOptions", "-XX:+ParallelRefProcEnabled"]

/-- JVM argument selection (Nova4k.py:860-880): the templated
`arguments.jvm` list when present, else the fixed defaults when only the
legacy `minecraftArguments` string exists, else nothing. -/
def jvmArgsBase (vd : VersionData) (current_os : String) : List String :=
  match vd.argumentsJvm with
  | some l => expandArgs l current_os
  | none =>
    match vd.minecraftArguments with
    | some _ => default_jvm_args
    | none => []

/-- macOS extras (Nova4k.py:883-888): on Darwin, append the thread-start
flag and the software-OpenGL flag unless each already occurs as a
substring of the space-joined list. -/
def darwinAppend (sysName : String) (jvm_args : List String) : List String :=
  let j1 := if sysName == "Darwin" &&
               !(strContains (sepJoin " " jvm_args) "-XstartOnFirstThread")
            then jvm_args ++ ["-XstartOnFirstThread"] else jvm_args
  if sysName == "Darwin" &&
     !(strContains (sepJoin " " j1) "-Dorg.lwjgl.opengl.Display.allowSoftwareOpenGL=true")
  then j1 ++ ["-Dorg.lwjgl.opengl.Display.allowSoftwareOpenGL=true"] else j1

/-- Cheat system properties (Nova4k.py:891-899), in toggle order. -/
def cheatArgs (killaura speed fly : Bool) : List String :=
  (if killaura then ["-Dnova.killaura=true"] else []) ++
  (if speed then ["-Dnova.speed=true"] else []) ++
  (if fly then ["-Dnova.fly=true"] else [])

/-- Game argument selection (Nova4k.py:909-930): the templated
`arguments.game` expansion when present, else the whitespace-split legacy
string, else `none` (which fails the build). -/
def gameArgsBase (vd : VersionData) (current_os : String) : Option (List String) :=
  match vd.argumentsGame with
  | some l => some (expandArgs l current_os)
  | none =>
    match vd.minecraftArguments with
    | some s => some (splitWs s)
    | none => none

/-- The fixed placeholder table (Nova4k.py:939-954), in insertion order. -/
def replacements (vd : VersionData) (version username : String) :
    List (String × String) :=
  [("${auth_player_name}", username),
   ("${version_name}", version),
   ("${game_directory}", renderPath MINECRAFT_SEGS),
   ("${assets_root}", renderPath (MINECRAFT_SEGS ++ ["assets"])),
   ("${assets_index_name}", vd.assetIndexId.getD version),
   ("${auth_uuid}", generate_offline_uuid username),
   ("${auth_access_token}", "0"),
   ("${user_type}", "legacy"),
   ("${version_type}", vd.vtype.getD "release"),
   ("${user_properties}", "\x7b\x7d"),
   ("${quickPlayRealms}", ""),
   ("${quickPlaySingleplayer}", ""),
   ("${quickPlayMultiplayer}", "")]

/-- Apply every table entry to one token, in order (Nova4k.py:958-963). -/
def applyReplacements (tbl : List (String × String)) (arg : String) : String :=
  tbl.foldl (fun acc kv => pyReplace acc kv.1 kv.2) arg

/-- The classpath loop (Nova4k.py:817-827): applicable libraries in
manifest order, keeping only primary-archive paths whose files exist. -/
def buildClasspath (libs : List Library) (current_os : String)
    (files : FSMap) : List FPath :=
  match libs with
  | [] => []
  | lib :: rest =>
    let tail := buildClasspath rest current_os files
    if is_library_allowed lib current_os then
      match lib.artifact with
      | some a => if pathExistsF files (libPath a.path)
                  then libPath a.path :: tail else tail
      | none => tail
    else tail

/-- Nova4k.py:772-975, `build_launch_command`: `[]` models every error
return.  The local metadata document must exist and parse, Java must
resolve, `mainClass` must be present; the classpath is the applicable,
existing library archives followed by the client JAR (missing JAR: hard
failure); then the JVM arguments, cheat properties, `-cp`, main class and
the placeholder-substituted game arguments. -/
def build_launch_command (version username : String) (ram : Nat)
    (sysName psep : String) (java_path? : Option String)
    (killaura speed fly : Bool) (st : AcqState) : List String :=
  match st.jsonFile with
  | none => []
  | some none => []
  | some (some version_data) =>
    let current_os := osName sysName
    match java_path? with
    | none => []
    | some java_path =>
      match version_data.mainClass with
      | none => []
      | some main_class =>
        let classpath := buildClasspath version_data.libraries current_os st.files
        if pathExistsF st.files (jarPath version) then
          let classpath_str :=
            sepJoin psep ((classpath ++ [jarPath version]).map renderPath)
          let jvm_args := darwinAppend sysName (jvmArgsBase version_data current_os)
          match gameArgsBase version_data current_os with
          | none => []
          | some game_args =>
            let final_game_args :=
              game_args.map (applyReplacements (replacements version_data version username))
            [java_path, "-Xmx" ++ toString ram ++ "G",
             "-Djava.library.path=" ++ renderPath (nativesDirSegs version)]
              ++ jvm_args ++ cheatArgs killaura speed fly
              ++ ["-cp", classpath_str, main_class] ++ final_game_args
        else []

/-! ## Lemmas and claim theorems -/

/-- A rule list containing a matching disallow rule scans to `false` from
any flag state. -/
lemma rulesScan_disallow_false (current_os : String) :
    ∀ (rs : List Rule) (allow : Bool),
      (∃ r ∈ rs, matchingDisallow r current_os = true) →
      rulesScan current_os rs allow = false := by
  intro rs
  induction rs with
  | nil => intro allow hex; simp at hex
  | cons a rest ih =>
    intro allow hex
    obtain ⟨r, hr, hm⟩ := hex
    rcases List.mem_cons.mp hr with heq | hmem
    · subst heq
      unfold matchingDisallow at hm
      rw [Bool.and_eq_true, Bool.and_eq_true] at hm
      obtain ⟨⟨hf, ha⟩, ho⟩ := hm
      rw [Bool.not_eq_true'] at hf
      have ha' : r.action = some "disallow" := by simpa using ha
      simp [rulesScan, hf, ho, ha']
    · have ihr := fun allow => ih allow ⟨r, hmem, hm⟩
      simp only [rulesScan]
      by_cases hf : a.features.isSome = true
      · simp only [hf, if_true]
        exact ihr allow
      · rw [Bool.not_eq_true] at hf
        simp only [hf, Bool.false_eq_true, if_false]
        split
        · split
          · exact ihr true
          · split
            · rfl
            · exact ihr allow
        · exact ihr allow

/-- C2: in both library-applicability evaluation and argument-conditional
evaluation, a rule list containing a matching disallow rule (no feature
predicate, action `"disallow"`, os predicate absent or naming the
platform) evaluates to `false`, regardless of any matching allow rules
elsewhere in the list. -/
theorem C2_disallow_veto (lib : Library) (rs : List Rule) (current_os : String)
    (hlib : lib.rules = some rs)
    (hex : ∃ r ∈ rs, matchingDisallow r current_os = true) :
    is_library_allowed lib current_os = false ∧
    evaluate_rules rs current_os = false := by
  have hscan := rulesScan_disallow_false current_os rs false hex
  constructor
  · unfold is_library_allowed
    rw [hlib]
    exact hscan
  · unfold evaluate_rules
    have hne : rs.isEmpty = false := by
      obtain ⟨r, hr, -⟩ := hex
      cases rs
      · cases hr
      · rfl
    rw [hne]
    simpa using hscan

/-- A library entry with an allow-everywhere rule followed by a
disallow-on-osx rule. -/
def libW : Library :=
  { name := "org.lwjgl:lwjgl:3",
    rules := some [{ action := some "allow", os := none, features := none },
                   { action := some "disallow", os := some { name := some "osx" },
                     features := none }],
    artifact := none, natives := [], classifiers := [] }

theorem C2_witness :
    is_library_allowed libW "osx" = false ∧
    evaluate_rules [{ action := some "allow", os := none, features := none },
                    { action := some "disallow", os := some { name := some "osx" },
                      features := none }] "osx" = false :=
  C2_disallow_veto libW _ "osx" rfl (by decide)

/-- A library entry whose `rules` key is present but holds the empty list. -/
def libEmptyRules : Library :=
  { name := "e:e:1", rules := some [], artifact := none, natives := [], classifiers := [] }

/-- A library entry with no `rules` key. -/
def libNoRules : Library :=
  { name := "n:n:1", rules := none, artifact := none, natives := [], classifiers := [] }

/-- C3 counterexample: the claim says an empty rule list makes a library
applicable on every platform, but `is_library_allowed` returns `false`
for a library whose rule list is present and empty. -/
theorem C3_counterexample : is_library_allowed libEmptyRules "linux" = false := by
  decide

/-- C3 as amended: an empty rule list evaluates to `true` in
argument-conditional evaluation, and a library with an absent rule list is
applicable everywhere; but a library whose rule list is present and empty
is applicable nowhere, and a conditional argument entry lacking its rule
list is skipped rather than included. -/
theorem C3_empty_rules (current_os : String) :
    evaluate_rules [] current_os = true ∧
    (∀ lib : Library, lib.rules = none → is_library_allowed lib current_os = true) ∧
    (∀ lib : Library, lib.rules = some [] → is_library_allowed lib current_os = false) ∧
    (∀ (v : Option ArgValueJ) (rest : List ArgEntry),
      expandArgs (ArgEntry.cond none v :: rest) current_os = expandArgs rest current_os) := by
  refine ⟨rfl, ?_, ?_, ?_⟩
  · intro lib h
    unfold is_library_allowed
    rw [h]
  · intro lib h
    unfold is_library_allowed
    rw [h]
    rfl
  · intro v rest
    rfl

theorem C3_witness :
    evaluate_rules [] "windows" = true ∧
    is_library_allowed libNoRules "windows" = true ∧
    is_library_allowed libEmptyRules "windows" = false ∧
    expandArgs [ArgEntry.cond none (some (ArgValueJ.one "-Xss1M"))] "windows" =
      expandArgs [] "windows" := by
  obtain ⟨h1, h2, h3, h4⟩ := C3_empty_rules "windows"
  exact ⟨h1, h2 libNoRules rfl, h3 libEmptyRules rfl, h4 (some (ArgValueJ.one "-Xss1M")) []⟩

set_option maxRecDepth 8000 in
/-- C4 counterexample: the empty file hashes to
`da39…` and the uppercase rendering of that digest is case-insensitively
equal to it, so the claim says verification succeeds; `verify_file`
returns `false` because the source compares `hexdigest()` output to the
expected digest without normalizing case. -/
theorem C4_counterexample :
    verify_file [(["f"], [])] ["f"] "DA39A3EE5E6B4B0D3255BFEF95601890AFD80709" = false ∧
    verify_file_spec [(["f"], [])] ["f"] "DA39A3EE5E6B4B0D3255BFEF95601890AFD80709" = true := by
  constructor
  · decide
  · decide

/-- C4 as amended: `verify_file` returns `false` when no file exists at the
path (or it cannot be read), and otherwise returns `true` exactly when the
lowercase SHA-1 hex digest of the full contents equals the expected digest
by exact, case-sensitive string comparison — an uppercase-hex expected
digest of matching content does not verify. -/
theorem C4_verify_exact (m : FSMap) (p : FPath) (e : String) :
    verify_file m p e = true ↔ ∃ c, lookupF m p = some c ∧ sha1hex c = e := by
  unfold verify_file
  cases h : lookupF m p with
  | none => simp
  | some c => simp [beq_iff_eq]

/-- `loadStage` on a cached, parseable document: no fetch, no state change. -/
lemma loadStage_cached (w : World) (d : VersionData) (files : FSMap) (nreq : Nat) :
    loadStage w ⟨some (some d), files, nreq⟩ = (some d, ⟨some (some d), files, nreq⟩) := by
  rw [loadStage]

/-- `loadStage` with no local document: one fetch attempt, succeeding only
when the remote document is present and parses. -/
lemma loadStage_absent (w : World) (files : FSMap) (nreq : Nat) :
    loadStage w ⟨none, files, nreq⟩ =
      (match w.versionDoc with
       | none => (none, ⟨none, files, nreq + 1⟩)
       | some none => (none, ⟨none, files, nreq + 1⟩)
       | some (some d) => (some d, ⟨some (some d), files, nreq + 1⟩)) := by
  rw [loadStage]
  rfl

/-- `loadStage` on a malformed local document: delete it and re-enter. -/
lemma loadStage_malformed (w : World) (files : FSMap) (nreq : Nat) :
    loadStage w ⟨some none, files, nreq⟩ = loadStage w ⟨none, files, nreq⟩ := by
  rw [loadStage]

/-- C9: metadata self-repair is bounded.  Any `loadStage` run attempts at
most one fetch; a malformed local document is deleted and the stage
re-entered exactly once (with exactly one fetch attempted in total); and
when the remote document is also permanently malformed the load — and with
it the whole `download_version_files` run — fails rather than retrying
again. -/
theorem C9_bounded_refetch (w : World) (st : AcqState) :
    (loadStage w st).2.nreq ≤ st.nreq + 1 ∧
    (st.jsonFile = some none →
      loadStage w st = loadStage w { st with jsonFile := none } ∧
      (loadStage w st).2.nreq = st.nreq + 1) ∧
    (st.jsonFile = some none → w.versionDoc = some none →
      (loadStage w st).1 = none ∧
      ∀ (version_id sysName archBits : String),
        (download_version_files w version_id sysName archBits st).1 = false) := by
  obtain ⟨jf, files, nreq⟩ := st
  have habs : (loadStage w ⟨none, files, nreq⟩).2.nreq = nreq + 1 := by
    rw [loadStage_absent]
    cases hv : w.versionDoc with
    | none => rfl
    | some o => cases o <;> rfl
  cases jf with
  | none =>
    refine ⟨by simpa using Nat.le_of_eq habs, ?_, ?_⟩
    · intro h; cases h
    · intro h; cases h
  | some o =>
    cases o with
    | none =>
      have hrw : loadStage w ⟨some none, files, nreq⟩ = loadStage w ⟨none, files, nreq⟩ :=
        loadStage_malformed w files nreq
      refine ⟨?_, ?_, ?_⟩
      · rw [hrw]; simpa using Nat.le_of_eq habs
      · intro _; exact ⟨hrw, by rw [hrw]; simpa using habs⟩
      · intro _ hv
        have h1 : (loadStage w ⟨some none, files, nreq⟩).1 = none := by
          rw [hrw, loadStage_absent, hv]
        refine ⟨h1, ?_⟩
        intro version_id sysName archBits
        unfold download_version_files
        rw [hrw, loadStage_absent, hv]
    | some d =>
      refine ⟨?_, ?_, ?_⟩
      · rw [loadStage_cached]; exact Nat.le_succ nreq
      · intro h; cases h
      · intro h; cases h

/-- A world whose remote metadata document is permanently malformed. -/
def wMalformed : World :=
  { versionDoc := some none, net := fun _ => none, zipEntries := fun _ => [] }

/-- A state holding a malformed local metadata document. -/
def stMalformed : AcqState := { jsonFile := some none, files := [], nreq := 0 }

theorem C9_witness :
    loadStage wMalformed stMalformed =
      loadStage wMalformed { stMalformed with jsonFile := none } ∧
    (loadStage wMalformed stMalformed).2.nreq = 1 ∧
    (loadStage wMalformed stMalformed).1 = none ∧
    (download_version_files wMalformed "1.20" "Linux" "64bit" stMalformed).1 = false := by
  obtain ⟨h1, h2, h3⟩ := C9_bounded_refetch wMalformed stMalformed
  obtain ⟨h4, h5⟩ := h2 rfl
  obtain ⟨h6, h7⟩ := h3 rfl rfl
  exact ⟨h4, h5, h6, h7 "1.20" "Linux" "64bit"⟩

/-- Inserting into a descending list permutes consing. -/
lemma insertDesc_perm (x : String) (l : List String) :
    (insertDesc x l).Perm (x :: l) := by
  induction l with
  | nil => exact List.Perm.refl _
  | cons y ys ih =>
    unfold insertDesc
    by_cases hc : strLtB x.data y.data = true
    · simp only [hc, if_true]
      exact (ih.cons y).trans (List.Perm.swap x y ys)
    · rw [Bool.not_eq_true] at hc
      simp only [hc, Bool.false_eq_true, if_false]
      exact List.Perm.refl _

/-- `sortDesc` permutes its input. -/
lemma sortDesc_perm (l : List String) : (sortDesc l).Perm l := by
  induction l with
  | nil => exact List.Perm.refl _
  | cons x xs ih =>
    exact (insertDesc_perm x (sortDesc xs)).trans (ih.cons x)

/-- Sorting a category preserves occurrence counts. -/
lemma count_sortDesc (l : List String) (x : String) :
    (sortDesc l).count x = l.count x :=
  (sortDesc_perm l).count_eq x

/-- `sortCats` preserves the total occurrence count. -/
lemma occCount_sortCats (c : Categories) (x : String) :
    occCount (sortCats c) x = occCount c x := by
  unfold occCount sortCats
  simp [count_sortDesc]

/-- Appending one element adds one occurrence of it. -/
lemma count_append_singleton (v : ManifestEntry) (l : List String) (x : String) :
    (l ++ [v.id]).count x = l.count x + (if v.id = x then 1 else 0) := by
  simp [List.count_append, List.count_cons, List.count_nil, beq_iff_eq]

/-- Classifying one entry adds one occurrence of its id when the entry is
filed somewhere (it equals a latest id or has a known type), and nothing
otherwise. -/
lemma occCount_classifyEntry (lr ls : String) (v : ManifestEntry) (c : Categories)
    (x : String) :
    occCount (classifyEntry lr ls v c) x =
      occCount c x + (if v.id = x ∧ knownB lr ls v = true then 1 else 0) := by
  unfold classifyEntry
  by_cases h1 : (v.id == lr) = true
  · have hk : knownB lr ls v = true := by simp [knownB, h1]
    simp only [h1, if_true, occCount, count_append_singleton, hk, and_true]
    by_cases hx : v.id = x <;> simp [hx] <;> omega
  · rw [Bool.not_eq_true] at h1
    simp only [h1, Bool.false_eq_true, if_false]
    by_cases h2 : (v.id == ls) = true
    · have hk : knownB lr ls v = true := by simp [knownB, h2]
      simp only [h2, if_true, occCount, count_append_singleton, hk, and_true]
      by_cases hx : v.id = x <;> simp [hx] <;> omega
    · rw [Bool.not_eq_true] at h2
      simp only [h2, Bool.false_eq_true, if_false]
      by_cases h3 : (v.vtype == "release") = true
      · have hk : knownB lr ls v = true := by simp [knownB, h3]
        simp only [h3, if_true, occCount, count_append_singleton, hk, and_true]
        by_cases hx : v.id = x <;> simp [hx] <;> omega
      · rw [Bool.not_eq_true] at h3
        simp only [h3, Bool.false_eq_true, if_false]
        by_cases h4 : (v.vtype == "snapshot") = true
        · have hk : knownB lr ls v = true := by simp [knownB, h4]
          simp only [h4, if_true, occCount, count_append_singleton, hk, and_true]
          by_cases hx : v.id = x <;> simp [hx] <;> omega
        · rw [Bool.not_eq_true] at h4
          simp only [h4, Bool.false_eq_true, if_false]
          by_cases h5 : (v.vtype == "old_beta") = true
          · have hk : knownB lr ls v = true := by simp [knownB, h5]
            simp only [h5, if_true, occCount, count_append_singleton, hk, and_true]
            by_cases hx : v.id = x <;> simp [hx] <;> omega
          · rw [Bool.not_eq_true] at h5
            simp only [h5, Bool.false_eq_true, if_false]
            by_cases h6 : (v.vtype == "old_alpha") = true
            · have hk : knownB lr ls v = true := by simp [knownB, h6]
              simp only [h6, if_true, occCount, count_append_singleton, hk, and_true]
              by_cases hx : v.id = x <;> simp [hx] <;> omega
            · rw [Bool.not_eq_true] at h6
              simp only [h6, Bool.false_eq_true, if_false]
              have hk : knownB lr ls v = false := by
                simp [knownB, h1, h2, h3, h4, h5, h6]
              simp [hk]

/-- The classification loop counts exactly the entries with the given id
that the classifier files somewhere. -/
lemma occCount_classifyLoop (lr ls : String) (x : String) :
    ∀ (vs : List ManifestEntry) (c : Categories),
      occCount (vs.foldl (fun c v => classifyEntry lr ls v c) c) x =
        occCount c x + vs.countP (fun v => decide (v.id = x) && knownB lr ls v) := by
  intro vs
  induction vs with
  | nil => intro c; simp
  | cons v rest ih =>
    intro c
    simp only [List.foldl_cons, List.countP_cons]
    rw [ih, occCount_classifyEntry]
    have : (if v.id = x ∧ knownB lr ls v = true then 1 else 0) =
        (if (decide (v.id = x) && knownB lr ls v) = true then 1 else 0) := by
      by_cases h : v.id = x ∧ knownB lr ls v = true <;> simp_all
    omega

/-- Classifying one entry never appends the latest-release id to the plain
Release category. -/
lemma count_releaseL_classifyEntry (lr ls : String) (v : ManifestEntry)
    (c : Categories) :
    ((classifyEntry lr ls v c).releaseL).count lr = (c.releaseL).count lr := by
  unfold classifyEntry
  split_ifs with h1 h2 h3 h4 h5 h6 <;>
    simp_all [List.count_append, List.count_cons, List.count_nil, beq_iff_eq]

/-- The loop never puts the latest-release id into the Release category. -/
lemma count_releaseL_classifyLoop (lr ls : String) :
    ∀ (vs : List ManifestEntry) (c : Categories),
      ((vs.foldl (fun c v => classifyEntry lr ls v c) c).releaseL).count lr =
        (c.releaseL).count lr := by
  intro vs
  induction vs with
  | nil => intro c; rfl
  | cons v rest ih =>
    intro c
    simp only [List.foldl_cons]
    rw [ih, count_releaseL_classifyEntry]

/-- Classifying one entry appends to Latest Release exactly when the entry
id is the latest-release id. -/
lemma count_latestL_classifyEntry (lr ls : String) (v : ManifestEntry)
    (c : Categories) :
    ((classifyEntry lr ls v c).latestReleaseL).count lr =
      (c.latestReleaseL).count lr + (if v.id = lr then 1 else 0) := by
  unfold classifyEntry
  split_ifs with h1 h2 h3 h4 h5 h6 <;>
    simp_all [List.count_append, List.count_cons, List.count_nil, beq_iff_eq]

/-- The loop puts the latest-release id into Latest Release once per entry
carrying that id. -/
lemma count_latestL_classifyLoop (lr ls : String) :
    ∀ (vs : List ManifestEntry) (c : Categories),
      ((vs.foldl (fun c v => classifyEntry lr ls v c) c).latestReleaseL).count lr =
        (c.latestReleaseL).count lr + vs.countP (fun v => decide (v.id = lr)) := by
  intro vs
  induction vs with
  | nil => intro c; simp
  | cons v rest ih =>
    intro c
    simp only [List.foldl_cons, List.countP_cons]
    rw [ih, count_latestL_classifyEntry]
    by_cases h : v.id = lr <;> simp_all <;> omega

/-- With pairwise-distinct ids, a predicate that pins the id down and holds
of a listed entry holds of exactly one entry. -/
lemma countP_eq_one_of_nodup (v0 : ManifestEntry) (p : ManifestEntry → Bool)
    (hp : p v0 = true) (hid : ∀ u, p u = true → u.id = v0.id) :
    ∀ (vs : List ManifestEntry),
      (vs.map (fun u => u.id)).Nodup → v0 ∈ vs → vs.countP p = 1 := by
  intro vs
  induction vs with
  | nil => intro _ hmem; cases hmem
  | cons a rest ih =>
    intro hnd hmem
    rw [List.map_cons, List.nodup_cons] at hnd
    obtain ⟨hna, hnr⟩ := hnd
    rw [List.countP_cons]
    by_cases hpa : p a = true
    · have hza : rest.countP p = 0 := by
        rw [List.countP_eq_zero]
        intro u hu hpu
        apply hna
        have hua : u.id = a.id := by rw [hid u hpu, ← hid a hpa]
        rw [← hua]
        exact List.mem_map_of_mem _ hu
      simp [hpa, hza]
    · rw [Bool.not_eq_true] at hpa
      have hmem' : v0 ∈ rest := by
        rcases List.mem_cons.mp hmem with h | h
        · subst h; rw [hp] at hpa; cases hpa
        · exact h
      simp [hpa, ih hnr hmem']

/-- C5 as amended: after a successful manifest load, if the listed version
identifiers are pairwise distinct and every entry's type is one of the
four known strings, then every listed identifier lands in exactly one of
the six category lists; the latest-release identifier never appears in the
plain Release category and, when listed, appears exactly once in Latest
Release.  (An entry with any other type string is filed nowhere — see the
counterexample.) -/
theorem C5_classification (m : Manifest)
    (hnd : (m.versions.map (fun v => v.id)).Nodup)
    (hty : ∀ v ∈ m.versions, v.vtype = "release" ∨ v.vtype = "snapshot" ∨
            v.vtype = "old_beta" ∨ v.vtype = "old_alpha") :
    (∀ v ∈ m.versions, occCount (load_version_manifest m).2 v.id = 1) ∧
    ((load_version_manifest m).2.releaseL.count m.latestRelease = 0) ∧
    (∀ v ∈ m.versions, v.id = m.latestRelease →
      (load_version_manifest m).2.latestReleaseL.count m.latestRelease = 1) := by
  have hcats : (load_version_manifest m).2 = sortCats (classifyAll m) := rfl
  refine ⟨?_, ?_, ?_⟩
  · intro v hv
    rw [hcats, occCount_sortCats]
    unfold classifyAll
    rw [occCount_classifyLoop]
    have hk : knownB m.latestRelease m.latestSnapshot v = true := by
      rcases hty v hv with h | h | h | h <;> simp [knownB, h]
    have hone := countP_eq_one_of_nodup v
      (fun u => decide (u.id = v.id) && knownB m.latestRelease m.latestSnapshot u)
      (by simp [hk])
      (fun u hu => by
        simp only [Bool.and_eq_true, decide_eq_true_eq] at hu
        exact hu.1)
      m.versions hnd hv
    rw [hone]
    rfl
  · rw [hcats]
    show (sortDesc (classifyAll m).releaseL).count m.latestRelease = 0
    rw [count_sortDesc]
    unfold classifyAll
    rw [count_releaseL_classifyLoop]
    rfl
  · intro v hv hid
    rw [hcats]
    show ((classifyAll m).latestReleaseL).count m.latestRelease = 1
    unfold classifyAll
    rw [count_latestL_classifyLoop]
    have hone := countP_eq_one_of_nodup v
      (fun u => decide (u.id = m.latestRelease))
      (by simp [hid])
      (fun u hu => by
        simp only [decide_eq_true_eq] at hu
        rw [hu, hid])
      m.versions hnd hv
    rw [hone]
    rfl

/-- A manifest carrying an entry with the unrecognized type
`"old_snapshot"`. -/
def mC5 : Manifest := ⟨"a", "b", [⟨"c", "old_snapshot", "u"⟩]⟩

/-- C5 counterexample: the identifier `"c"` is listed in the manifest but
appears in none of the six category lists after loading, because its type
string matches no branch of the classifier — the claim that every listed
identifier lands in exactly one category fails. -/
theorem C5_counterexample :
    (⟨"c", "old_snapshot", "u"⟩ : ManifestEntry) ∈ mC5.versions ∧
    occCount (load_version_manifest mC5).2 "c" = 0 := by
  constructor
  · decide
  · rfl

/-- A well-formed three-entry manifest: the latest release, an older
release, and an old beta. -/
def mW : Manifest :=
  ⟨"1.21", "24w33a",
   [⟨"1.21", "release", "u1"⟩, ⟨"1.20", "release", "u2"⟩, ⟨"b1.8", "old_beta", "u3"⟩]⟩

theorem C5_witness :
    occCount (load_version_manifest mW).2 "1.21" = 1 ∧
    occCount (load_version_manifest mW).2 "1.20" = 1 ∧
    occCount (load_version_manifest mW).2 "b1.8" = 1 ∧
    (load_version_manifest mW).2.releaseL.count "1.21" = 0 ∧
    (load_version_manifest mW).2.latestReleaseL.count "1.21" = 1 := by
  obtain ⟨h1, h2, h3⟩ := C5_classification mW (by decide) (by decide)
  exact ⟨h1 ⟨"1.21", "release", "u1"⟩ (by decide),
         h1 ⟨"1.20", "release", "u2"⟩ (by decide),
         h1 ⟨"b1.8", "old_beta", "u3"⟩ (by decide),
         h2,
         h3 ⟨"1.21", "release", "u1"⟩ (by decide) rfl⟩

/-- `loadStage` on any state holding a cached, parseable document. -/
lemma loadStage_cached_of (w : World) (st : AcqState) (d : VersionData)
    (h : st.jsonFile = some (some d)) : loadStage w st = (some d, st) := by
  obtain ⟨jf, files, nreq⟩ := st
  have h' : jf = some (some d) := h
  subst h'
  exact loadStage_cached w d files nreq

/-- `jarStage` skips cleanly when the client JAR is present and verified. -/
lemma jarStage_skip (w : World) (version_id : String) (jar_info : ClientInfo)
    (st : AcqState)
    (hpe : pathExistsF st.files (jarPath version_id) = true)
    (hvf : verify_file st.files (jarPath version_id) jar_info.sha1 = true) :
    jarStage w version_id jar_info st = (true, st) := by
  unfold jarStage
  simp [hpe, hvf]

/-- `libArtifactStep` skips cleanly when its archive is cached. -/
lemma libArtifactStep_skip (w : World) (st : AcqState) (lib : Library)
    (h : (match lib.artifact with
          | none => true
          | some a => pathExistsF st.files (libPath a.path) &&
                      verify_file st.files (libPath a.path) a.sha1) = true) :
    libArtifactStep w st lib = st := by
  unfold libArtifactStep
  cases ha : lib.artifact with
  | none => rfl
  | some a =>
    rw [ha] at h
    simp only [Bool.and_eq_true] at h
    obtain ⟨hpe, hvf⟩ := h
    simp [hpe, hvf]

/-- `libNativesStep` skips cleanly when its native archive is cached. -/
lemma libNativesStep_skip (w : World) (version_id cos archBits : String)
    (st : AcqState) (lib : Library)
    (h : (match assocLookup lib.natives cos with
          | none => true
          | some natv =>
            match assocLookup lib.classifiers
                (pyReplace natv "${arch}" (pyReplace archBits "bit" "")) with
            | none => true
            | some ni =>
              pathExistsF st.files
                (nativeTmpPath version_id lib.name
                  (pyReplace natv "${arch}" (pyReplace archBits "bit" ""))) &&
              verify_file st.files
                (nativeTmpPath version_id lib.name
                  (pyReplace natv "${arch}" (pyReplace archBits "bit" "")))
                ni.sha1) = true) :
    libNativesStep w version_id cos archBits st lib = st := by
  unfold libNativesStep
  cases hn : assocLookup lib.natives cos with
  | none => rfl
  | some natv =>
    simp only [hn] at h
    cases hcl : assocLookup lib.classifiers
        (pyReplace natv "${arch}" (pyReplace archBits "bit" "")) with
    | none => simp [hcl]
    | some ni =>
      simp only [hcl] at h
      simp only [Bool.and_eq_true] at h
      obtain ⟨hpe, hvf⟩ := h
      simp [hcl, hpe, hvf]

/-- `libStep` leaves the state untouched when all its skip conditions hold. -/
lemma libStep_cached (w : World) (version_id cos archBits : String)
    (st : AcqState) (lib : Library)
    (hc : libCached version_id cos archBits st.files lib = true) :
    libStep w version_id cos archBits st lib = st := by
  unfold libCached at hc
  by_cases hal : is_library_allowed lib cos = true
  case neg =>
    rw [Bool.not_eq_true] at hal
    unfold libStep
    rw [hal]
    simp
  case pos =>
  rw [hal] at hc
  simp only [Bool.not_true, Bool.false_or, Bool.and_eq_true] at hc
  obtain ⟨hart, hnat⟩ := hc
  unfold libStep
  rw [hal]
  simp only [if_true]
  rw [libArtifactStep_skip w st lib hart]
  exact libNativesStep_skip w version_id cos archBits st lib hnat

/-- The library loop leaves the state untouched when every library's skip
conditions hold. -/
lemma foldl_libStep_cached (w : World) (version_id cos archBits : String) :
    ∀ (libs : List Library) (st : AcqState),
      (∀ lib ∈ libs, libCached version_id cos archBits st.files lib = true) →
      libs.foldl (libStep w version_id cos archBits) st = st := by
  intro libs
  induction libs with
  | nil => intro st _; rfl
  | cons lib rest ih =>
    intro st h
    rw [List.foldl_cons, libStep_cached w version_id cos archBits st lib
      (h lib (List.mem_cons_self lib rest))]
    exact ih st (fun l hl => h l (List.mem_cons_of_mem lib hl))

/-- C6: acquisition is idempotent against a fully verified cache.  When the
local metadata document parses, the client JAR is present and verified,
and every library's primary archive and resolved native archive are
present and verified, a `download_version_files` run returns success and
leaves the state — including the network request count — exactly as it
found it: zero network requests are performed. -/
theorem C6_idempotent (w : World) (version_id sysName archBits : String)
    (st : AcqState) (vd : VersionData) (jar_info : ClientInfo)
    (hjson : st.jsonFile = some (some vd))
    (hcli : vd.client = some jar_info)
    (hjar : pathExistsF st.files (jarPath version_id) = true)
    (hjarv : verify_file st.files (jarPath version_id) jar_info.sha1 = true)
    (hlibs : ∀ lib ∈ vd.libraries,
      libCached version_id (osName sysName) archBits st.files lib = true) :
    download_version_files w version_id sysName archBits st = (true, st) := by
  unfold download_version_files
  rw [loadStage_cached_of w st vd hjson]
  simp only [hcli]
  rw [jarStage_skip w version_id jar_info st hjar hjarv]
  show (true, vd.libraries.foldl (libStep w version_id (osName sysName) archBits) st) =
    (true, st)
  rw [foldl_libStep_cached w version_id (osName sysName) archBits vd.libraries st hlibs]

/-- Reading a freshly written path. -/
lemma lookupF_writeF (m : FSMap) (p : FPath) (c : List Nat) (q : FPath) :
    lookupF (writeF m p c) q = if p = q then some c else lookupF m q := rfl

/-- Reading after a delete. -/
lemma lookupF_removeF : ∀ (m : FSMap) (p q : FPath),
    lookupF (removeF m p) q = if p = q then none else lookupF m q := by
  intro m p q
  induction m with
  | nil =>
    by_cases hpq : p = q <;> simp [removeF, lookupF, hpq]
  | cons e rest ih =>
    obtain ⟨a, c⟩ := e
    by_cases hap : a = p <;> by_cases hpq : p = q <;>
      simp_all [removeF, lookupF, List.filter_cons]

/-- Unpacking natives touches only paths of five components. -/
lemma lookup_extractNatives (version_id : String) (p : FPath) (hp : p.length ≠ 5) :
    ∀ (entries : List ZipEntry) (files : FSMap),
      lookupF (extractNatives entries version_id files) p = lookupF files p := by
  intro entries
  induction entries with
  | nil => intro files; rfl
  | cons e rest ih =>
    intro files
    unfold extractNatives
    rw [ih]
    by_cases hd : e.isDir = true
    · simp [hd]
    · rw [Bool.not_eq_true] at hd
      simp only [hd, Bool.false_eq_true, if_false]
      rw [lookupF_writeF, if_neg]
      intro he
      apply hp
      rw [← he]
      simp [nativesDirSegs]

/-- `libArtifactStep` touches only paths of three components. -/
lemma libArtifactStep_frame (w : World) (st : AcqState) (lib : Library)
    (p : FPath) (hp : p.length ≠ 3) :
    lookupF (libArtifactStep w st lib).files p = lookupF st.files p := by
  unfold libArtifactStep
  cases ha : lib.artifact with
  | none => rfl
  | some a =>
    have hne : libPath a.path ≠ p := by
      intro he
      apply hp
      rw [← he]
      rfl
    dsimp only
    by_cases hcond : (!pathExistsF st.files (libPath a.path) ||
        !verify_file st.files (libPath a.path) a.sha1) = true
    · simp only [hcond, if_true]
      cases hnet : w.net a.url with
      | none => simp [bumpSt]
      | some content =>
        dsimp only
        by_cases hv : (!verify_file (writeF st.files (libPath a.path) content)
            (libPath a.path) a.sha1) = true
        · simp [hv, lookupF_removeF, lookupF_writeF, hne]
        · rw [Bool.not_eq_true] at hv
          simp [hv, lookupF_writeF, hne]
    · rw [Bool.not_eq_true] at hcond
      simp [hcond]

/-- `libNativesStep` touches only paths of five components. -/
lemma libNativesStep_frame (w : World) (version_id cos archBits : String)
    (st : AcqState) (lib : Library) (p : FPath) (hp : p.length ≠ 5) :
    lookupF (libNativesStep w version_id cos archBits st lib).files p =
      lookupF st.files p := by
  unfold libNativesStep
  cases hn : assocLookup lib.natives cos with
  | none => rfl
  | some natv =>
    dsimp only
    cases hcl : assocLookup lib.classifiers
        (pyReplace natv "${arch}" (pyReplace archBits "bit" "")) with
    | none => rfl
    | some ni =>
      have hne : nativeTmpPath version_id lib.name
          (pyReplace natv "${arch}" (pyReplace archBits "bit" "")) ≠ p := by
        intro he
        apply hp
        rw [← he]
        rfl
      dsimp only
      by_cases hcond : (!pathExistsF st.files (nativeTmpPath version_id lib.name
          (pyReplace natv "${arch}" (pyReplace archBits "bit" ""))) ||
          !verify_file st.files (nativeTmpPath version_id lib.name
            (pyReplace natv "${arch}" (pyReplace archBits "bit" "")))
            ni.sha1) = true
      · simp only [hcond, if_true]
        cases hnet : w.net ni.url with
        | none => simp [bumpSt]
        | some content =>
          dsimp only
          by_cases hv : (!verify_file (writeF st.files (nativeTmpPath version_id lib.name
              (pyReplace natv "${arch}" (pyReplace archBits "bit" ""))) content)
              (nativeTmpPath version_id lib.name
                (pyReplace natv "${arch}" (pyReplace archBits "bit" "")))
              ni.sha1) = true
          · simp [hv, lookupF_removeF, lookupF_writeF, hne]
          · rw [Bool.not_eq_true] at hv
            simp only [hv, Bool.not_false, Bool.false_eq_true, if_false]
            rw [lookup_extractNatives version_id p hp]
            simp [lookupF_writeF, hne]
      · rw [Bool.not_eq_true] at hcond
        simp [hcond]

/-- `libStep` touches only paths of three or five components. -/
lemma libStep_frame (w : World) (version_id cos archBits : String)
    (st : AcqState) (lib : Library) (p : FPath)
    (h3 : p.length ≠ 3) (h5 : p.length ≠ 5) :
    lookupF (libStep w version_id cos archBits st lib).files p =
      lookupF st.files p := by
  unfold libStep
  by_cases hal : is_library_allowed lib cos = true
  · simp only [hal, if_true]
    rw [libNativesStep_frame w version_id cos archBits _ lib p h5]
    exact libArtifactStep_frame w st lib p h3
  · rw [Bool.not_eq_true] at hal
    simp [hal]

/-- The whole library loop touches only paths of three or five components;
in particular it never touches the client JAR. -/
lemma foldl_libStep_frame (w : World) (version_id cos archBits : String)
    (p : FPath) (h3 : p.length ≠ 3) (h5 : p.length ≠ 5) :
    ∀ (libs : List Library) (st : AcqState),
      lookupF (libs.foldl (libStep w version_id cos archBits) st).files p =
        lookupF st.files p := by
  intro libs
  induction libs with
  | nil => intro st; rfl
  | cons lib rest ih =>
    intro st
    rw [List.foldl_cons, ih, libStep_frame w version_id cos archBits st lib p h3 h5]

/-- A freshly downloaded file verifies exactly when its digest matches. -/
lemma verify_file_writeF (m : FSMap) (p : FPath) (content : List Nat)
    (expected : String) :
    verify_file (writeF m p content) p expected = (sha1hex content == expected) := by
  unfold verify_file
  rw [lookupF_writeF, if_pos rfl]

/-- `jarStage` on a main archive that needs downloading and then fails
re-verification: the downloaded file is deleted and the stage fails. -/
lemma jarStage_mismatch (w : World) (version_id : String) (jar_info : ClientInfo)
    (st : AcqState) (content : List Nat)
    (hneed : (pathExistsF st.files (jarPath version_id) &&
      verify_file st.files (jarPath version_id) jar_info.sha1) = false)
    (hnet : w.net jar_info.url = some content)
    (hmis : (sha1hex content == jar_info.sha1) = false) :
    jarStage w version_id jar_info st =
      (false, { st with nreq := st.nreq + 1,
                        files := removeF (writeF st.files (jarPath version_id) content)
                                   (jarPath version_id) }) := by
  unfold jarStage
  have hcond : (!pathExistsF st.files (jarPath version_id) ||
      !verify_file st.files (jarPath version_id) jar_info.sha1) = true := by
    rw [← Bool.not_and, hneed]
    rfl
  have hv : verify_file (writeF st.files (jarPath version_id) content)
      (jarPath version_id) jar_info.sha1 = false := by
    rw [verify_file_writeF]
    exact hmis
  simp [hcond, hnet, hv]

/-- `jarStage` on a main archive that needs downloading and then verifies:
the stage succeeds with the downloaded bytes on disk. -/
lemma jarStage_download_ok (w : World) (version_id : String) (jar_info : ClientInfo)
    (st : AcqState) (content : List Nat)
    (hneed : (pathExistsF st.files (jarPath version_id) &&
      verify_file st.files (jarPath version_id) jar_info.sha1) = false)
    (hnet : w.net jar_info.url = some content)
    (hok : (sha1hex content == jar_info.sha1) = true) :
    jarStage w version_id jar_info st =
      (true, { st with nreq := st.nreq + 1,
                       files := writeF st.files (jarPath version_id) content }) := by
  unfold jarStage
  have hcond : (!pathExistsF st.files (jarPath version_id) ||
      !verify_file st.files (jarPath version_id) jar_info.sha1) = true := by
    rw [← Bool.not_and, hneed]
    rfl
  have hv : verify_file (writeF st.files (jarPath version_id) content)
      (jarPath version_id) jar_info.sha1 = true := by
    rw [verify_file_writeF]
    exact hok
  simp [hcond, hnet, hv]

/-- `libStep` on an applicable library whose primary archive needs
downloading and then fails re-verification, with no natives to process:
the downloaded file is deleted and the loop state moves on. -/
lemma libStep_artifact_mismatch (w : World) (version_id cos archBits : String)
    (st : AcqState) (lib : Library) (a : Artifact) (content : List Nat)
    (hal : is_library_allowed lib cos = true)
    (ha : lib.artifact = some a)
    (hneed : (pathExistsF st.files (libPath a.path) &&
      verify_file st.files (libPath a.path) a.sha1) = false)
    (hnet : w.net a.url = some content)
    (hmis : (sha1hex content == a.sha1) = false)
    (hnat : assocLookup lib.natives cos = none) :
    libStep w version_id cos archBits st lib =
      { st with nreq := st.nreq + 1,
                files := removeF (writeF st.files (libPath a.path) content)
                           (libPath a.path) } := by
  unfold libStep
  simp only [hal, if_true]
  have hart : libArtifactStep w st lib =
      { st with nreq := st.nreq + 1,
                files := removeF (writeF st.files (libPath a.path) content)
                           (libPath a.path) } := by
    unfold libArtifactStep
    have hcond : (!pathExistsF st.files (libPath a.path) ||
        !verify_file st.files (libPath a.path) a.sha1) = true := by
      rw [← Bool.not_and, hneed]
      rfl
    have hv : verify_file (writeF st.files (libPath a.path) content)
        (libPath a.path) a.sha1 = false := by
      rw [verify_file_writeF]
      exact hmis
    simp [ha, hcond, hnet, hv]
  rw [hart]
  apply libNativesStep_skip
  rw [hnat]

/-- C1: acquisition treats the main archive as mandatory and library
archives as optional.  With the metadata document cached and parsed:
(a) when the main archive is absent or fails verification, it is
downloaded and re-verified, and a post-download digest mismatch deletes
the downloaded file and fails the whole run; (b) with the main archive
present and verified the run always returns success, whatever happens to
the libraries; (c) a post-download digest mismatch on an applicable
library's primary archive deletes that file, yet the run still returns
overall success; (d) a main-archive download whose digest matches leaves
the verified bytes on disk and the run succeeds. -/
theorem C1_main_mandatory_lib_optional (w : World)
    (version_id sysName archBits : String) (st : AcqState)
    (vd : VersionData) (jar_info : ClientInfo)
    (hjson : st.jsonFile = some (some vd))
    (hcli : vd.client = some jar_info) :
    ((pathExistsF st.files (jarPath version_id) &&
       verify_file st.files (jarPath version_id) jar_info.sha1) = false →
      ∀ content, w.net jar_info.url = some content →
        (sha1hex content == jar_info.sha1) = false →
        download_version_files w version_id sysName archBits st =
          (false, { st with nreq := st.nreq + 1,
                            files := removeF
                              (writeF st.files (jarPath version_id) content)
                              (jarPath version_id) }) ∧
        lookupF (download_version_files w version_id sysName archBits st).2.files
          (jarPath version_id) = none) ∧
    (pathExistsF st.files (jarPath version_id) = true →
      verify_file st.files (jarPath version_id) jar_info.sha1 = true →
      (download_version_files w version_id sysName archBits st).1 = true) ∧
    (∀ (lib : Library) (a : Artifact) (content : List Nat),
      vd.libraries = [lib] →
      is_library_allowed lib (osName sysName) = true →
      lib.artifact = some a →
      (pathExistsF st.files (libPath a.path) &&
        verify_file st.files (libPath a.path) a.sha1) = false →
      w.net a.url = some content →
      (sha1hex content == a.sha1) = false →
      assocLookup lib.natives (osName sysName) = none →
      pathExistsF st.files (jarPath version_id) = true →
      verify_file st.files (jarPath version_id) jar_info.sha1 = true →
      download_version_files w version_id sysName archBits st =
        (true, { st with nreq := st.nreq + 1,
                         files := removeF
                           (writeF st.files (libPath a.path) content)
                           (libPath a.path) }) ∧
      lookupF (download_version_files w version_id sysName archBits st).2.files
        (libPath a.path) = none) ∧
    ((pathExistsF st.files (jarPath version_id) &&
       verify_file st.files (jarPath version_id) jar_info.sha1) = false →
      ∀ content, w.net jar_info.url = some content →
        (sha1hex content == jar_info.sha1) = true →
        (download_version_files w version_id sysName archBits st).1 = true ∧
        lookupF (download_version_files w version_id sysName archBits st).2.files
          (jarPath version_id) = some content) := by
  have hshape : download_version_files w version_id sysName archBits st =
      (match jarStage w version_id jar_info st with
       | (false, st2) => (false, st2)
       | (true, st2) => (true, vd.libraries.foldl
           (libStep w version_id (osName sysName) archBits) st2)) := by
    unfold download_version_files
    rw [loadStage_cached_of w st vd hjson]
    simp only [hcli]
  have h4 : (jarPath version_id).length = 4 := rfl
  refine ⟨?_, ?_, ?_, ?_⟩
  · intro hneed content hnet hmis
    rw [hshape, jarStage_mismatch w version_id jar_info st content hneed hnet hmis]
    refine ⟨rfl, ?_⟩
    show lookupF (removeF (writeF st.files (jarPath version_id) content)
      (jarPath version_id)) (jarPath version_id) = none
    rw [lookupF_removeF, if_pos rfl]
  · intro hpe hvf
    rw [hshape, jarStage_skip w version_id jar_info st hpe hvf]
  · intro lib a content hlibs hal ha hneed hnet hmis hnat hpe hvf
    rw [hshape, jarStage_skip w version_id jar_info st hpe hvf, hlibs]
    dsimp only
    rw [List.foldl_cons, List.foldl_nil,
      libStep_artifact_mismatch w version_id (osName sysName) archBits st lib a
        content hal ha hneed hnet hmis hnat]
    refine ⟨rfl, ?_⟩
    show lookupF (removeF (writeF st.files (libPath a.path) content)
      (libPath a.path)) (libPath a.path) = none
    rw [lookupF_removeF, if_pos rfl]
  · intro hneed content hnet hok
    rw [hshape, jarStage_download_ok w version_id jar_info st content hneed hnet hok]
    refine ⟨rfl, ?_⟩
    show lookupF (vd.libraries.foldl (libStep w version_id (osName sysName) archBits)
      { st with nreq := st.nreq + 1,
                files := writeF st.files (jarPath version_id) content }).files
      (jarPath version_id) = some content
    rw [foldl_libStep_frame w version_id (osName sysName) archBits
      (jarPath version_id) (by rw [h4]; decide) (by rw [h4]; decide)]
    show lookupF (writeF st.files (jarPath version_id) content)
      (jarPath version_id) = some content
    rw [lookupF_writeF, if_pos rfl]

/-- A library whose primary archive is the one-byte file `"a"`
(SHA-1 `86f7…`). -/
def libC1 : Library :=
  { name := "g:a:1", rules := none,
    artifact := some { path := "g/a.jar", url := "uA",
                       sha1 := "86f7e437faa5a7fce15d1ddcb9eaeaea377667b8" },
    natives := [], classifiers := [] }

/-- A metadata document whose client JAR is the empty file (SHA-1 `da39…`)
and whose one library is `libC1`. -/
def vdC1 : VersionData :=
  { client := some { url := "uJ", sha1 := "da39a3ee5e6b4b0d3255bfef95601890afd80709" },
    libraries := [libC1], mainClass := some "net.minecraft.client.main.Main",
    argumentsJvm := none, argumentsGame := none, minecraftArguments := none,
    assetIndexId := none, vtype := none }

/-- Metadata cached, no artifacts on disk. -/
def stNoJar : AcqState := { jsonFile := some (some vdC1), files := [], nreq := 0 }

/-- Metadata cached, client JAR present and correct, library absent. -/
def stJar : AcqState :=
  { jsonFile := some (some vdC1), files := [(jarPath "1.20", [])], nreq := 0 }

/-- A network that serves a wrong body for the client JAR. -/
def wBadJar : World :=
  { versionDoc := none, net := fun u => if u == "uJ" then some [98] else none,
    zipEntries := fun _ => [] }

/-- A network that serves a wrong body for the library archive. -/
def wBadLib : World :=
  { versionDoc := none, net := fun u => if u == "uA" then some [99] else none,
    zipEntries := fun _ => [] }

/-- A network that serves the correct (empty) client JAR. -/
def wGoodJar : World :=
  { versionDoc := none, net := fun u => if u == "uJ" then some [] else none,
    zipEntries := fun _ => [] }

set_option maxRecDepth 8000 in
theorem C1_witness :
    (download_version_files wBadJar "1.20" "Linux" "64bit" stNoJar =
      (false, { stNoJar with
                  nreq := stNoJar.nreq + 1,
                  files := removeF (writeF stNoJar.files (jarPath "1.20") [98])
                             (jarPath "1.20") }) ∧
     lookupF (download_version_files wBadJar "1.20" "Linux" "64bit" stNoJar).2.files
       (jarPath "1.20") = none) ∧
    (download_version_files wBadLib "1.20" "Linux" "64bit" stJar).1 = true ∧
    (download_version_files wBadLib "1.20" "Linux" "64bit" stJar =
      (true, { stJar with
                 nreq := stJar.nreq + 1,
                 files := removeF (writeF stJar.files (libPath "g/a.jar") [99])
                            (libPath "g/a.jar") }) ∧
     lookupF (download_version_files wBadLib "1.20" "Linux" "64bit" stJar).2.files
       (libPath "g/a.jar") = none) ∧
    ((download_version_files wGoodJar "1.20" "Linux" "64bit" stNoJar).1 = true ∧
     lookupF (download_version_files wGoodJar "1.20" "Linux" "64bit" stNoJar).2.files
       (jarPath "1.20") = some []) := by
  refine ⟨?_, ?_, ?_, ?_⟩
  · exact (C1_main_mandatory_lib_optional wBadJar "1.20" "Linux" "64bit" stNoJar
      vdC1 _ rfl rfl).1 (by decide) [98] rfl (by decide)
  · exact (C1_main_mandatory_lib_optional wBadLib "1.20" "Linux" "64bit" stJar
      vdC1 _ rfl rfl).2.1 (by decide) (by decide)
  · exact (C1_main_mandatory_lib_optional wBadLib "1.20" "Linux" "64bit" stJar
      vdC1 _ rfl rfl).2.2.1 libC1 _ [99] rfl (by decide) rfl (by decide) rfl
      (by decide) rfl (by decide) (by decide)
  · exact (C1_main_mandatory_lib_optional wGoodJar "1.20" "Linux" "64bit" stNoJar
      vdC1 _ rfl rfl).2.2.2 (by decide) [] rfl (by decide)

/-- Metadata cached, client JAR and library archive both present and
verified. -/
def stFull : AcqState :=
  { jsonFile := some (some vdC1),
    files := [(jarPath "1.20", []), (libPath "g/a.jar", [97])], nreq := 0 }

/-- A world with no reachable network at all. -/
def wOffline : World :=
  { versionDoc := none, net := fun _ => none, zipEntries := fun _ => [] }

set_option maxRecDepth 8000 in
theorem C6_witness :
    download_version_files wOffline "1.20" "Linux" "64bit" stFull = (true, stFull) :=
  C6_idempotent wOffline "1.20" "Linux" "64bit" stFull vdC1 _ rfl rfl
    (by decide) (by decide) (by decide)

/-- The shape of a successful `build_launch_command`: runtime path and
memory/native flags, then the JVM arguments (with the macOS extras), the
cheat properties, the classpath flag with the library paths followed by
the client JAR, the main class, and the substituted game arguments. -/
lemma build_launch_success (version username : String) (ram : Nat)
    (sysName psep java_path : String) (killaura speed fly : Bool)
    (st : AcqState) (vd : VersionData) (main_class : String)
    (game_args : List String)
    (hjson : st.jsonFile = some (some vd))
    (hmc : vd.mainClass = some main_class)
    (hjar : pathExistsF st.files (jarPath version) = true)
    (hgame : gameArgsBase vd (osName sysName) = some game_args) :
    build_launch_command version username ram sysName psep (some java_path)
      killaura speed fly st =
      [java_path, "-Xmx" ++ toString ram ++ "G",
       "-Djava.library.path=" ++ renderPath (nativesDirSegs version)]
        ++ darwinAppend sysName (jvmArgsBase vd (osName sysName))
        ++ cheatArgs killaura speed fly
        ++ ["-cp", sepJoin psep
              ((buildClasspath vd.libraries (osName sysName) st.files
                ++ [jarPath version]).map renderPath), main_class]
        ++ game_args.map (applyReplacements (replacements vd version username)) := by
  obtain ⟨jf, files, nreq⟩ := st
  have h' : jf = some (some vd) := hjson
  subst h'
  have hjar' : pathExistsF files (jarPath version) = true := hjar
  unfold build_launch_command
  simp only [hmc, hjar', hgame, if_true]

/-- A missing client JAR fails the build outright. -/
lemma build_jar_missing (version username : String) (ram : Nat)
    (sysName psep java_path : String) (killaura speed fly : Bool)
    (st : AcqState) (vd : VersionData) (main_class : String)
    (hjson : st.jsonFile = some (some vd))
    (hmc : vd.mainClass = some main_class)
    (hjar : pathExistsF st.files (jarPath version) = false) :
    build_launch_command version username ram sysName psep (some java_path)
      killaura speed fly st = [] := by
  obtain ⟨jf, files, nreq⟩ := st
  have h' : jf = some (some vd) := hjson
  subst h'
  have hjar' : pathExistsF files (jarPath version) = false := hjar
  unfold build_launch_command
  simp [hmc, hjar']

/-- Classpath step: an applicable library with an existing archive
contributes its path. -/
lemma buildClasspath_cons_present (lib : Library) (rest : List Library)
    (cos : String) (files : FSMap) (a : Artifact)
    (hal : is_library_allowed lib cos = true)
    (ha : lib.artifact = some a)
    (hpe : pathExistsF files (libPath a.path) = true) :
    buildClasspath (lib :: rest) cos files =
      libPath a.path :: buildClasspath rest cos files := by
  unfold buildClasspath
  simp [hal, ha, hpe]
  cases rest <;> rfl

/-- Classpath step: an applicable library whose archive is missing is
silently skipped. -/
lemma buildClasspath_cons_missing (lib : Library) (rest : List Library)
    (cos : String) (files : FSMap) (a : Artifact)
    (hal : is_library_allowed lib cos = true)
    (ha : lib.artifact = some a)
    (hpe : pathExistsF files (libPath a.path) = false) :
    buildClasspath (lib :: rest) cos files = buildClasspath rest cos files := by
  unfold buildClasspath
  simp [hal, ha, hpe]
  cases rest <;> rfl

/-- C7: for a metadata document with libraries `[A, B]` both applicable and
with both archives on disk and the main archive `M` present, the built
classpath is exactly A's path, then B's path, then M's path, joined with
the platform path separator; when B's archive is missing it is silently
skipped (the build still succeeds with classpath A then M); when the main
archive is missing the build fails outright. -/
theorem C7_classpath_order (version username : String) (ram : Nat)
    (sysName psep java_path : String) (killaura speed fly : Bool)
    (st : AcqState) (vd : VersionData) (main_class : String)
    (game_args : List String) (A B : Library) (aA aB : Artifact)
    (hjson : st.jsonFile = some (some vd))
    (hmc : vd.mainClass = some main_class)
    (hgame : gameArgsBase vd (osName sysName) = some game_args)
    (hlibs : vd.libraries = [A, B])
    (halA : is_library_allowed A (osName sysName) = true)
    (haA : A.artifact = some aA)
    (halB : is_library_allowed B (osName sysName) = true)
    (haB : B.artifact = some aB)
    (hpeA : pathExistsF st.files (libPath aA.path) = true) :
    (pathExistsF st.files (libPath aB.path) = true →
     pathExistsF st.files (jarPath version) = true →
      build_launch_command version username ram sysName psep (some java_path)
        killaura speed fly st =
        [java_path, "-Xmx" ++ toString ram ++ "G",
         "-Djava.library.path=" ++ renderPath (nativesDirSegs version)]
          ++ darwinAppend sysName (jvmArgsBase vd (osName sysName))
          ++ cheatArgs killaura speed fly
          ++ ["-cp", sepJoin psep [renderPath (libPath aA.path),
                renderPath (libPath aB.path), renderPath (jarPath version)],
              main_class]
          ++ game_args.map (applyReplacements (replacements vd version username))) ∧
    (pathExistsF st.files (libPath aB.path) = false →
     pathExistsF st.files (jarPath version) = true →
      build_launch_command version username ram sysName psep (some java_path)
        killaura speed fly st =
        [java_path, "-Xmx" ++ toString ram ++ "G",
         "-Djava.library.path=" ++ renderPath (nativesDirSegs version)]
          ++ darwinAppend sysName (jvmArgsBase vd (osName sysName))
          ++ cheatArgs killaura speed fly
          ++ ["-cp", sepJoin psep [renderPath (libPath aA.path),
                renderPath (jarPath version)], main_class]
          ++ game_args.map (applyReplacements (replacements vd version username)) ∧
      build_launch_command version username ram sysName psep (some java_path)
        killaura speed fly st ≠ []) ∧
    (pathExistsF st.files (jarPath version) = false →
      build_launch_command version username ram sysName psep (some java_path)
        killaura speed fly st = []) := by
  refine ⟨?_, ?_, ?_⟩
  · intro hpeB hjar
    rw [build_launch_success version username ram sysName psep java_path
      killaura speed fly st vd main_class game_args hjson hmc hjar hgame]
    rw [hlibs,
      buildClasspath_cons_present A [B] (osName sysName) st.files aA halA haA hpeA,
      buildClasspath_cons_present B [] (osName sysName) st.files aB halB haB hpeB]
    rfl
  · intro hpeB hjar
    have heq := build_launch_success version username ram sysName psep java_path
      killaura speed fly st vd main_class game_args hjson hmc hjar hgame
    rw [hlibs,
      buildClasspath_cons_present A [B] (osName sysName) st.files aA halA haA hpeA,
      buildClasspath_cons_missing B [] (osName sysName) st.files aB halB haB hpeB]
      at heq
    refine ⟨heq, ?_⟩
    rw [heq]
    intro hcon
    cases hcon
  · intro hjar
    exact build_jar_missing version username ram sysName psep java_path
      killaura speed fly st vd main_class hjson hmc hjar

/-- A minimal metadata document for the substitution examples. -/
def vdEx : VersionData :=
  { client := none, libraries := [], mainClass := some "Main",
    argumentsJvm := none, argumentsGame := none, minecraftArguments := none,
    assetIndexId := some "17", vtype := some "release" }

set_option maxRecDepth 8000 in
/-- C8: every program (game) argument token is passed through the full
placeholder table — each token is folded through `str.replace` for every
key of the table — so substitution is not limited to exact full-token
matches: a token mixing literal text with a placeholder has the
placeholder replaced in place, and a token holding two distinct
placeholders has both replaced in one pass. -/
theorem C8_placeholder_substitution (version username : String) (ram : Nat)
    (sysName psep java_path : String) (killaura speed fly : Bool)
    (st : AcqState) (vd : VersionData) (main_class : String)
    (game_args : List String)
    (hjson : st.jsonFile = some (some vd))
    (hmc : vd.mainClass = some main_class)
    (hjar : pathExistsF st.files (jarPath version) = true)
    (hgame : gameArgsBase vd (osName sysName) = some game_args) :
    build_launch_command version username ram sysName psep (some java_path)
      killaura speed fly st =
      [java_path, "-Xmx" ++ toString ram ++ "G",
       "-Djava.library.path=" ++ renderPath (nativesDirSegs version)]
        ++ darwinAppend sysName (jvmArgsBase vd (osName sysName))
        ++ cheatArgs killaura speed fly
        ++ ["-cp", sepJoin psep
              ((buildClasspath vd.libraries (osName sysName) st.files
                ++ [jarPath version]).map renderPath), main_class]
        ++ game_args.map (applyReplacements (replacements vd version username)) ∧
    applyReplacements (replacements vdEx "1.20.1" "Steve")
      "--username ${auth_player_name}" = "--username Steve" ∧
    applyReplacements (replacements vdEx "1.20.1" "Steve")
      "${version_name}/${auth_player_name}" = "1.20.1/Steve" := by
  refine ⟨build_launch_success version username ram sysName psep java_path
    killaura speed fly st vd main_class game_args hjson hmc hjar hgame, ?_, ?_⟩
  · decide
  · decide

/-- The templated JVM list is taken as-is when present. -/
lemma jvmArgsBase_args (vd : VersionData) (jl : List ArgEntry) (cos : String)
    (h : vd.argumentsJvm = some jl) : jvmArgsBase vd cos = expandArgs jl cos := by
  unfold jvmArgsBase
  rw [h]

/-- The macOS extras only ever append; existing tokens survive. -/
lemma mem_darwinAppend (sysName : String) (l : List String) (t : String)
    (ht : t ∈ l) : t ∈ darwinAppend sysName l := by
  unfold darwinAppend
  dsimp only
  split <;> split <;>
    first
      | exact List.mem_append_left _ (List.mem_append_left _ ht)
      | exact List.mem_append_left _ ht
      | exact ht

/-- C10: runtime (JVM) argument tokens from the metadata's templated list
are appended with no placeholder substitution: the JVM section of the
built command is exactly the expanded template (plus the appended macOS
extras), so every expanded JVM token — `${...}` placeholders included —
appears verbatim in the final command vector, while the replacement table
is applied only to the game-argument section. -/
theorem C10_jvm_verbatim (version username : String) (ram : Nat)
    (sysName psep java_path : String) (killaura speed fly : Bool)
    (st : AcqState) (vd : VersionData) (main_class : String)
    (game_args : List String) (jl : List ArgEntry)
    (hjson : st.jsonFile = some (some vd))
    (hmc : vd.mainClass = some main_class)
    (hjar : pathExistsF st.files (jarPath version) = true)
    (hjvm : vd.argumentsJvm = some jl)
    (hgame : gameArgsBase vd (osName sysName) = some game_args) :
    build_launch_command version username ram sysName psep (some java_path)
      killaura speed fly st =
      [java_path, "-Xmx" ++ toString ram ++ "G",
       "-Djava.library.path=" ++ renderPath (nativesDirSegs version)]
        ++ darwinAppend sysName (expandArgs jl (osName sysName))
        ++ cheatArgs killaura speed fly
        ++ ["-cp", sepJoin psep
              ((buildClasspath vd.libraries (osName sysName) st.files
                ++ [jarPath version]).map renderPath), main_class]
        ++ game_args.map (applyReplacements (replacements vd version username)) ∧
    (∀ t ∈ expandArgs jl (osName sysName),
      t ∈ build_launch_command version username ram sysName psep (some java_path)
            killaura speed fly st) := by
  have heq := build_launch_success version username ram sysName psep java_path
    killaura speed fly st vd main_class game_args hjson hmc hjar hgame
  rw [jvmArgsBase_args vd jl (osName sysName) hjvm] at heq
  refine ⟨heq, ?_⟩
  intro t ht
  rw [heq]
  apply List.mem_append_left
  apply List.mem_append_left
  apply List.mem_append_left
  apply List.mem_append_right
  exact mem_darwinAppend sysName _ t ht

/-- A second library with its own archive path. -/
def libB1 : Library :=
  { name := "h:b:1", rules := none,
    artifact := some { path := "h/b.jar", url := "uB", sha1 := "beef" },
    natives := [], classifiers := [] }

/-- A metadata document with libraries `[libC1, libB1]` and one literal
game argument. -/
def vdC7 : VersionData :=
  { client := some { url := "uJ", sha1 := "feed" },
    libraries := [libC1, libB1], mainClass := some "Main",
    argumentsJvm := none, argumentsGame := some [ArgEntry.lit "--demo"],
    minecraftArguments := none, assetIndexId := none, vtype := none }

/-- Metadata cached, client JAR and both library archives on disk. -/
def stC7 : AcqState :=
  { jsonFile := some (some vdC7),
    files := [(jarPath "1.20", []), (libPath "g/a.jar", []),
              (libPath "h/b.jar", [])], nreq := 0 }

theorem C7_witness :
    build_launch_command "1.20" "Steve" 4 "Linux" ":" (some "java")
      false false false stC7 =
      ["java", "-Xmx" ++ toString 4 ++ "G",
       "-Djava.library.path=" ++ renderPath (nativesDirSegs "1.20")]
        ++ darwinAppend "Linux" (jvmArgsBase vdC7 (osName "Linux"))
        ++ cheatArgs false false false
        ++ ["-cp", sepJoin ":" [renderPath (libPath "g/a.jar"),
              renderPath (libPath "h/b.jar"), renderPath (jarPath "1.20")],
            "Main"]
        ++ ["--demo"].map (applyReplacements (replacements vdC7 "1.20" "Steve")) :=
  (C7_classpath_order "1.20" "Steve" 4 "Linux" ":" "java" false false false
    stC7 vdC7 "Main" ["--demo"] libC1 libB1 _ _
    rfl rfl rfl rfl (by decide) rfl (by decide) rfl (by decide)).1
    (by decide) (by decide)

/-- A metadata document whose game arguments mix a literal token with a
templated one. -/
def vdC8 : VersionData :=
  { client := some { url := "uJ", sha1 := "feed" },
    libraries := [], mainClass := some "Main",
    argumentsJvm := none,
    argumentsGame := some [ArgEntry.lit "--username",
                           ArgEntry.lit "${auth_player_name}"],
    minecraftArguments := none, assetIndexId := some "17",
    vtype := some "release" }

/-- Metadata cached, client JAR on disk. -/
def stC8 : AcqState :=
  { jsonFile := some (some vdC8), files := [(jarPath "1.20.1", [])], nreq := 0 }

set_option maxRecDepth 8000 in
theorem C8_witness :
    build_launch_command "1.20.1" "Steve" 4 "Linux" ":" (some "java")
      false false false stC8 =
      ["java", "-Xmx" ++ toString 4 ++ "G",
       "-Djava.library.path=" ++ renderPath (nativesDirSegs "1.20.1")]
        ++ darwinAppend "Linux" (jvmArgsBase vdC8 (osName "Linux"))
        ++ cheatArgs false false false
        ++ ["-cp", sepJoin ":"
              ((buildClasspath vdC8.libraries (osName "Linux") stC8.files
                ++ [jarPath "1.20.1"]).map renderPath), "Main"]
        ++ ["--username", "${auth_player_name}"].map
             (applyReplacements (replacements vdC8 "1.20.1" "Steve")) ∧
    applyReplacements (replacements vdEx "1.20.1" "Steve")
      "--username ${auth_player_name}" = "--username Steve" ∧
    applyReplacements (replacements vdEx "1.20.1" "Steve")
      "${version_name}/${auth_player_name}" = "1.20.1/Steve" :=
  C8_placeholder_substitution "1.20.1" "Steve" 4 "Linux" ":" "java"
    false false false stC8 vdC8 "Main" ["--username", "${auth_player_name}"]
    rfl rfl (by decide) rfl

/-- A metadata document whose JVM argument list carries a `${...}`
placeholder in a literal token. -/
def vdC10 : VersionData :=
  { client := some { url := "uJ", sha1 := "feed" },
    libraries := [], mainClass := some "Main",
    argumentsJvm := some [ArgEntry.lit "-Djna.tmpdir=${natives_directory}"],
    argumentsGame := some [], minecraftArguments := none,
    assetIndexId := none, vtype := none }

/-- Metadata cached, client JAR on disk. -/
def stC10 : AcqState :=
  { jsonFile := some (some vdC10), files := [(jarPath "1.20", [])], nreq := 0 }

theorem C10_witness :
    "-Djna.tmpdir=${natives_directory}" ∈
      build_launch_command "1.20" "Steve" 4 "Linux" ":" (some "java")
        false false false stC10 :=
  (C10_jvm_verbatim "1.20" "Steve" 4 "Linux" ":" "java" false false false
    stC10 vdC10 "Main" [] [ArgEntry.lit "-Djna.tmpdir=${natives_directory}"]
    rfl rfl (by decide) rfl rfl).2
    "-Djna.tmpdir=${natives_directory}" (by decide)
